import Mathlib

/-!
A shallow embedding of `main.go` of ble-explorer.

The program scans for Bluetooth LE advertisements, connects to every connectable
peripheral once, and explores the GATT profile of those that expose one fixed
service, optionally subscribing to notifications and indications.

Everything below the orchestration (`ble.Scan`, `ble.Connect`, the `ble.Client`
methods) belongs to the external `ble` package.  Its behaviour is an input of the
model: an `Env` answers every collaborator call, and the answer may depend on
everything the program has done before (the event log).  The functions of
`main.go` become functions that extend the event log and report how they ended.
-/

namespace BleExplorer

/-! ## Data of the `ble` package used by `main.go` -/

/-- Go `[]byte`; every entry is a byte value. -/
abbrev Bytes := List Nat

/-- Go `time.Duration`: a signed count of nanoseconds. -/
abbrev Duration := Int

/-- A `ble.UUID`, represented by the text `UUID.String()` returns for it (lower-case
hexadecimal digits).  The text determines the bytes and the bytes the text. -/
structure UUID where
  hex : String
deriving DecidableEq, Repr

/-- The method `UUID.String()`. -/
def UUID.String (u : UUID) : String := u.hex

/-- The method `UUID.Equal(v)`: equality of the bytes. -/
def UUID.Equal (u v : UUID) : Bool := decide (u = v)

/-- The function `ble.MustParse` on a text of hexadecimal digits: `String()` of the
result is the text in lower case. -/
def MustParse (s : String) : UUID := ⟨String.mk (s.data.map Char.toLower)⟩

/-- The constant `ble.ServiceChangedUUID` of package `ble`, the 16-bit UUID `0x2A05` of
the service-changed characteristic. -/
def ServiceChangedUUID : UUID := ⟨"2a05"⟩

/-- Go `ble.Property`, an `int` holding the property bits of a characteristic. -/
abbrev Property := Int

/-- The constant `ble.CharBroadcast` of package `ble`: the broadcast bit of the characteristic
properties of the Bluetooth specification. -/
def CharBroadcast : Property := 0x01
/-- The constant `ble.CharRead` of package `ble`: the read bit of the characteristic
properties of the Bluetooth specification. -/
def CharRead : Property := 0x02
/-- The constant `ble.CharWriteNR` of package `ble`: the write-without-response bit of the characteristic
properties of the Bluetooth specification. -/
def CharWriteNR : Property := 0x04
/-- The constant `ble.CharWrite` of package `ble`: the write bit of the characteristic
properties of the Bluetooth specification. -/
def CharWrite : Property := 0x08
/-- The constant `ble.CharNotify` of package `ble`: the notify bit of the characteristic
properties of the Bluetooth specification. -/
def CharNotify : Property := 0x10
/-- The constant `ble.CharIndicate` of package `ble`: the indicate bit of the characteristic
properties of the Bluetooth specification. -/
def CharIndicate : Property := 0x20
/-- The constant `ble.CharSignedWrite` of package `ble`: the signed-write bit of the characteristic
properties of the Bluetooth specification. -/
def CharSignedWrite : Property := 0x40
/-- The constant `ble.CharExtended` of package `ble`: the extended-properties bit of the characteristic
properties of the Bluetooth specification. -/
def CharExtended : Property := 0x80

/-- A `ble.Advertisement`: the values its accessor methods return.  `Addr` is the
text `a.Addr().String()`. -/
structure Advertisement where
  Addr : String
  Connectable : Bool
  LocalName : String
  Services : List UUID
  ManufacturerData : Bytes
  RSSI : Int
deriving DecidableEq, Repr

/-- A `ble.Descriptor`. -/
structure Descriptor where
  UUID : UUID
  Handle : Nat
deriving DecidableEq, Repr

/-- A `ble.Characteristic`. -/
structure Characteristic where
  UUID : UUID
  Property : Property
  Handle : Nat
  ValueHandle : Nat
  Descriptors : List Descriptor
deriving DecidableEq, Repr

/-- A `ble.Service`. -/
structure Service where
  UUID : UUID
  Handle : Nat
  Characteristics : List Characteristic
deriving DecidableEq, Repr

/-- A `ble.Profile`. -/
structure Profile where
  Services : List Service
deriving DecidableEq, Repr

/-! ## What a run does: output and collaborator calls -/

/-- One `fmt.Printf` of `main.go`, with the values it formats. -/
inductive Output where
  /-- Line 53, `Scanning for %s...`. -/
  | scanning (sd : Duration)
  /-- Line 58, `Connecting to devices...`. -/
  | connecting
  /-- Line 69, `Done`. -/
  | done
  /-- Line 266, `Scanned %d devices`. -/
  | scanned (n : Nat)
  /-- Line 268, `canceled`. -/
  | canceled
  /-- Line 222, the summary line `[%s] RSSI %3d:` of a peripheral. -/
  | device (addr : String) (rssi : Int)
  /-- Line 230, `Name: %s`. -/
  | name (localName : String)
  /-- Line 234, `%sSvcs: %v`. -/
  | svcs (comma : String) (services : List UUID)
  /-- Line 238, `%sManu: %X`. -/
  | manu (comma : String) (data : Bytes)
  /-- Lines 214 and 240, an empty line. -/
  | newline
  /-- Line 149, the service line. -/
  | service (uuid : UUID) (handle : Nat)
  /-- Lines 152-153, the characteristic line; `props` is `propString(c.Property)`. -/
  | characteristic (uuid : UUID) (property : Property) (props : String)
      (handle : Nat) (valueHandle : Nat)
  /-- Lines 160 and 170, a value line. -/
  | value (b : Bytes)
  /-- Line 164, the descriptor line. -/
  | descriptor (uuid : UUID) (handle : Nat)
  /-- Lines 189 and 201, the banner before `Subscribe` (`ind` tells indication). -/
  | subscribing (ind : Bool) (sub : Duration)
  /-- Lines 190 and 202, the line the callback prints for one pushed value. -/
  | pushed (ind : Bool) (req : Bytes)
  /-- Lines 198 and 210, the banner after `Unsubscribe`. -/
  | unsubscribed (ind : Bool)
deriving DecidableEq, Repr

/-- The four `log.Fatalf` of `main.go`. -/
inductive Fatal where
  /-- Line 48, `can't new device`. -/
  | newDevice
  /-- Line 270, the error of `ble.Scan`. -/
  | scan
  /-- Lines 192 and 204, `subscribe failed`. -/
  | subscribe
  /-- Lines 196 and 208, `unsubscribe failed`. -/
  | unsubscribe
deriving DecidableEq, Repr

/-- One observable step of a run, in program order. -/
inductive Event where
  /-- A `fmt.Printf`. -/
  | print (o : Output)
  /-- The function `connect(device)` was entered and called `ble.Connect` with the
  filter that accepts the address text of `device`. -/
  | connect (device : Advertisement)
  /-- The call `cln.DiscoverProfile(true)`. -/
  | discoverProfile
  /-- The call `cln.ReadLongCharacteristic(c)`. -/
  | readLongCharacteristic (c : Characteristic)
  /-- The call `cln.ReadDescriptor(d)`. -/
  | readDescriptor (d : Descriptor)
  /-- The call `cln.Subscribe(c, ind, h)`. -/
  | subscribe (c : Characteristic) (ind : Bool)
  /-- The call `time.Sleep(d)`. -/
  | sleep (d : Duration)
  /-- The call `cln.Unsubscribe(c, ind)`. -/
  | unsubscribe (c : Characteristic) (ind : Bool)
  /-- The call `cln.CancelConnection()`. -/
  | cancelConnection
  /-- The receive `<-done` returned: the goroutine saw `cln.Disconnected()`. -/
  | disconnected
  /-- A `log.Fatalf`: the message is written and the process exits. -/
  | fatalf (why : Fatal)
deriving DecidableEq, Repr

/-- How a function of `main.go` ended. -/
inductive Outcome where
  /-- It returned to its caller. -/
  | returned
  /-- It ended the process through `log.Fatalf`. -/
  | fatal
  /-- It waits for ever in `<-done`. -/
  | blocked
deriving DecidableEq, Repr

/-- The value of `errors.Cause(err)` that `chkErr` switches on. -/
inductive Cause where
  /-- The value `nil`. -/
  | none
  /-- The value `context.DeadlineExceeded`. -/
  | deadlineExceeded
  /-- The value `context.Canceled`. -/
  | canceled
  /-- Any other error. -/
  | other
deriving DecidableEq, Repr

/-- The command-line options (lines 30-36). -/
structure Flags where
  device : String
  sub : Duration
  sd : Duration
  cd : Duration
  dup : Bool
deriving DecidableEq, Repr

/-- The behaviour of the `ble` package and of the Go runtime in one run.  A field
that takes a log answers a call made after the events of that log; `true` and
`some` stand for a `nil` error. -/
structure Env where
  /-- Whether `dev.NewDevice` succeeds. -/
  newDevice : Bool
  /-- The advertisements `ble.Scan` hands to the handler, in order. -/
  advertisements : List Advertisement
  /-- The cause of the error `ble.Scan` returns. -/
  scan : Cause
  /-- Whether `ble.Connect` succeeds for the filter on this address text. -/
  connect : List Event → String → Bool
  /-- The result of `cln.DiscoverProfile(true)`. -/
  discoverProfile : List Event → Option Profile
  /-- The result of `cln.ReadLongCharacteristic(c)`. -/
  readLongCharacteristic : List Event → Characteristic → Option Bytes
  /-- The result of `cln.ReadDescriptor(d)`. -/
  readDescriptor : List Event → Descriptor → Option Bytes
  /-- Whether `cln.Subscribe(c, ind, h)` succeeds. -/
  subscribe : List Event → Characteristic → Bool → Bool
  /-- The values pushed to the callback `h` while the program sleeps. -/
  pushed : List Event → Characteristic → Bool → List Bytes
  /-- Whether `cln.Unsubscribe(c, ind)` succeeds. -/
  unsubscribe : List Event → Characteristic → Bool → Bool
  /-- Whether the channel `cln.Disconnected()` ever delivers. -/
  disconnected : List Event → Bool
  /-- The order in which `range` visits the map literal of `propString`. -/
  range : List Event → List (Property × String)

/-- A function of `main.go` run after the events of a log: how it ended, and the
log with its own events appended. -/
abbrev Run := Outcome × List Event

/-! ## The functions of `main.go` -/

/-- The function `advHandler` (lines 73-79) acting on the global `devices`. -/
def advHandler (devices : List Advertisement) (a : Advertisement) : List Advertisement :=
  if !a.Connectable then
    devices
  else
    devices ++ [a]

/-- The constant `ServiceID` (line 125). -/
def ServiceID : String := "b82ab3fc15954f6a80f0fe094cc218f9"

/-- The map literal of `propString` (lines 245-254), in the order it is written. -/
def propTable : List (Property × String) :=
  [(CharBroadcast, "B"), (CharRead, "R"), (CharWriteNR, "w"), (CharWrite, "W"),
   (CharNotify, "N"), (CharIndicate, "I"), (CharSignedWrite, "S"), (CharExtended, "E")]

/-- The function `propString` (lines 243-260); `order` is the order in which `range`
visits the entries of the map. -/
def propString (order : List (Property × String)) (p : Property) : String :=
  order.foldl (fun s kv => if Int.land p kv.1 ≠ 0 then s ++ kv.2 else s) ""

/-- The function `showDevice` (lines 220-241): the lines it prints. -/
def showDevice (a : Advertisement) : List Output :=
  if a.Connectable then
    let out := [Output.device a.Addr a.RSSI]
    let comma := ""
    let (out, comma) :=
      if a.LocalName.length > 0 then (out ++ [.name a.LocalName], "") else (out, comma)
    let (out, comma) :=
      if a.Services.length > 0 then (out ++ [.svcs comma a.Services], "") else (out, comma)
    let out :=
      if a.ManufacturerData.length > 0 then out ++ [.manu comma a.ManufacturerData] else out
    out ++ [.newline]
  else
    []

/-- The descriptor loop of `explore` (lines 163-171).  A failed read skips the value
line of that descriptor only. -/
def readDescriptors (env : Env) : List Descriptor → List Event → List Event
  | [], log => log
  | d :: ds, log =>
    let log1 := log ++ [.print (.descriptor d.UUID d.Handle)]
    match env.readDescriptor log1 d with
    | none => readDescriptors env ds (log1 ++ [.readDescriptor d])
    | some b => readDescriptors env ds (log1 ++ [.readDescriptor d, .print (.value b)])

/-- One subscription block of `explore`: lines 188-199 for `ind = false`
(notification) and lines 200-211 for `ind = true` (indication), entered when the
property bit of the mode is set.  The two blocks differ in the mode and the texts. -/
def subscription (env : Env) (sub : Duration) (c : Characteristic) (ind : Bool)
    (log : List Event) : Run :=
  let log1 := log ++ [.print (.subscribing ind sub)]
  if env.subscribe log1 c ind then
    let log2 := log1 ++ [.subscribe c ind]
    let log3 := log2 ++ [.sleep sub] ++ (env.pushed log2 c ind).map (fun b => .print (.pushed ind b))
    if env.unsubscribe log3 c ind then
      (.returned, log3 ++ [.unsubscribe c ind, .print (.unsubscribed ind)])
    else
      (.fatal, log3 ++ [.unsubscribe c ind, .fatalf .unsubscribe])
  else
    (.fatal, log1 ++ [.subscribe c ind, .fatalf .subscribe])

/-- Lines 173-212 of `explore`: the subscriptions of one characteristic. -/
def subscribeAll (env : Env) (sub : Duration) (c : Characteristic) (log : List Event) : Run :=
  if sub ≠ 0 then
    if c.UUID.Equal ServiceChangedUUID then
      (.returned, log)
    else if c.UUID.Equal (MustParse "8667556C9A374C9184ED54EE27D90049") then
      (.returned, log)
    else
      let r := if Int.land c.Property CharNotify ≠ 0 then subscription env sub c false log
               else (.returned, log)
      match r with
      | (.returned, log1) =>
        if Int.land c.Property CharIndicate ≠ 0 then subscription env sub c true log1
        else (.returned, log1)
      | r => r
  else
    (.returned, log)

/-- The body of the characteristic loop of `explore` (lines 152-212).  A failed
long-read is followed by `continue`: the loop goes to the next characteristic. -/
def exploreCharacteristic (env : Env) (sub : Duration) (c : Characteristic)
    (log : List Event) : Run :=
  let log1 := log ++ [.print (.characteristic c.UUID c.Property
    (propString (env.range log) c.Property) c.Handle c.ValueHandle)]
  if Int.land c.Property CharRead ≠ 0 then
    match env.readLongCharacteristic log1 c with
    | none => (.returned, log1 ++ [.readLongCharacteristic c])
    | some b =>
      let log2 := log1 ++ [.readLongCharacteristic c, .print (.value b)]
      subscribeAll env sub c (readDescriptors env c.Descriptors log2)
  else
    subscribeAll env sub c (readDescriptors env c.Descriptors log1)

/-- The characteristic loop of `explore` (line 151). -/
def exploreCharacteristics (env : Env) (sub : Duration) :
    List Characteristic → List Event → Run
  | [], log => (.returned, log)
  | c :: cs, log =>
    match exploreCharacteristic env sub c log with
    | (.returned, log1) => exploreCharacteristics env sub cs log1
    | r => r

/-- The service loop of `explore` (lines 144-215). -/
def exploreServices (env : Env) (sub : Duration) : List Service → List Event → Run
  | [], log => (.returned, log)
  | s :: ss, log =>
    if s.UUID.String ≠ ServiceID then
      exploreServices env sub ss log
    else
      let log1 := log ++ [.print (.service s.UUID s.Handle)]
      match exploreCharacteristics env sub s.Characteristics log1 with
      | (.returned, log2) => exploreServices env sub ss (log2 ++ [.print .newline])
      | r => r

/-- The search loop of `explore` (lines 130-136): the value of `foundService`. -/
def foundService : List Service → Bool
  | [] => false
  | s :: ss => if s.UUID.String = ServiceID then true else foundService ss

/-- The function `explore` (lines 128-217); it returns `nil` whenever it returns. -/
def explore (env : Env) (sub : Duration) (p : Profile) (a : Advertisement)
    (log : List Event) : Run :=
  if !foundService p.Services then
    (.returned, log)
  else
    exploreServices env sub p.Services (log ++ (showDevice a).map .print)

/-- The function `connect` (lines 82-122).  The goroutine of lines 102-106 closes
`done` once `cln.Disconnected()` delivers, and line 121 waits for that. -/
def connect (env : Env) (sub : Duration) (device : Advertisement) (log : List Event) : Run :=
  let log1 := log ++ [.connect device]
  if env.connect log device.Addr then
    let log2 := log1 ++ [.discoverProfile]
    let r : Run :=
      match env.discoverProfile log1 with
      | none => (.returned, log2)
      | some p => explore env sub p device log2
    match r with
    | (.returned, log3) =>
      let log4 := log3 ++ [.cancelConnection]
      if env.disconnected log4 then (.returned, log4 ++ [.disconnected])
      else (.blocked, log4)
    | r => r
  else
    (.returned, log1)

/-- The connection loop of `main` (lines 60-68); `previousDevices` holds the keys the
map of that name sends to `true`. -/
def connectLoop (env : Env) (sub : Duration) :
    List Advertisement → List String → List Event → Run
  | [], _, log => (.returned, log)
  | device :: devices, previousDevices, log =>
    let addr := device.Addr
    if addr ∈ previousDevices then
      connectLoop env sub devices previousDevices log
    else
      match connect env sub device log with
      | (.returned, log1) => connectLoop env sub devices (addr :: previousDevices) log1
      | r => r

/-- The function `chkErr` (lines 262-272) on the cause of the error. -/
def chkErr (err : Cause) (devices : List Advertisement) (log : List Event) : Run :=
  match err with
  | .none => (.returned, log)
  | .deadlineExceeded => (.returned, log ++ [.print (.scanned devices.length)])
  | .canceled => (.returned, log ++ [.print .canceled])
  | .other => (.fatal, log ++ [.fatalf .scan])

/-- The global `devices` after `ble.Scan` has handed every advertisement to
`advHandler`. -/
def scanned (env : Env) : List Advertisement :=
  env.advertisements.foldl advHandler []

/-- The function `main` (lines 41-70). -/
def main (env : Env) (flags : Flags) : Run :=
  if !env.newDevice then
    (.fatal, [.fatalf .newDevice])
  else
    let log := [.print (.scanning flags.sd)]
    let devices := scanned env
    match chkErr env.scan devices log with
    | (.returned, log1) =>
      match connectLoop env flags.sub devices [] (log1 ++ [.print .connecting]) with
      | (.returned, log2) => (.returned, log2 ++ [.print .done])
      | r => r
    | r => r

/-! ## Notions used to state and prove the properties -/

/-- The events `explore` produces outside the subscription blocks. -/
def Event.inert : Event → Bool
  | .print _ => true
  | .readLongCharacteristic _ => true
  | .readDescriptor _ => true
  | _ => false

/-- A property of the outcome and of the appended events of a step, given the log
the step started from, that holds for the plain steps and is kept by sequencing. -/
structure Compositional (P : List Event → Outcome → List Event → Prop) : Prop where
  nil : ∀ log, P log .returned []
  inert : ∀ log e, e.inert = true → P log .returned [e]
  seq : ∀ log ext1 o ext2, P log .returned ext1 → P (log ++ ext1) o ext2 →
    P log o (ext1 ++ ext2)

/-- The run `r`, started from `log`, appends events only, and `P` holds of them. -/
def Holds (P : List Event → Outcome → List Event → Prop) (log : List Event) (r : Run) : Prop :=
  ∃ ext, r.2 = log ++ ext ∧ P log r.1 ext

/-- Whether the event is a `Subscribe` call. -/
def Event.isSubscribe : Event → Bool
  | .subscribe _ _ => true
  | _ => false

/-- Whether the event is an `Unsubscribe` call. -/
def Event.isUnsubscribe : Event → Bool
  | .unsubscribe _ _ => true
  | _ => false

/-- The events one subscription block appends after its banner and its `Subscribe`. -/
def sessionTail (env : Env) (sub : Duration) (c : Characteristic) (ind : Bool)
    (log : List Event) : List Event :=
  let log1 := log ++ [.print (.subscribing ind sub)]
  if env.subscribe log1 c ind then
    let log2 := log1 ++ [.subscribe c ind]
    let log3 := log2 ++ [.sleep sub] ++ (env.pushed log2 c ind).map (fun b => .print (.pushed ind b))
    .sleep sub :: (env.pushed log2 c ind).map (fun b => Event.print (.pushed ind b)) ++
      [.unsubscribe c ind,
        if env.unsubscribe log3 c ind then .print (.unsubscribed ind) else .fatalf .unsubscribe]
  else
    [.fatalf .subscribe]

/-- The events `explore` can produce when the subscription window is `sub`: no event of
`connect`, and a `Subscribe` or `Unsubscribe` only with a window, off the two excluded
UUIDs and with the property bit of its mode. -/
def Event.allowed (sub : Duration) : Event → Prop
  | .print _ => True
  | .readLongCharacteristic _ => True
  | .readDescriptor _ => True
  | .sleep _ => True
  | .fatalf _ => True
  | .subscribe c ind => sub ≠ 0 ∧ c.UUID ≠ ServiceChangedUUID ∧
      c.UUID ≠ MustParse "8667556C9A374C9184ED54EE27D90049" ∧
      Int.land c.Property (if ind = true then CharIndicate else CharNotify) ≠ 0
  | .unsubscribe c ind => sub ≠ 0 ∧ c.UUID ≠ ServiceChangedUUID ∧
      c.UUID ≠ MustParse "8667556C9A374C9184ED54EE27D90049" ∧
      Int.land c.Property (if ind = true then CharIndicate else CharNotify) ≠ 0
  | _ => False

/-- The step does not block and appends allowed events only. -/
def Shape (sub : Duration) : List Event → Outcome → List Event → Prop :=
  fun _ o ext => o ≠ .blocked ∧ ∀ e ∈ ext, e.allowed sub

/-- Whether the call that event `e` records fails when made after `history`, for the
calls whose failure is followed by `log.Fatalf` in `explore`. -/
def Env.fails (env : Env) (history : List Event) : Event → Bool
  | .subscribe c ind => !env.subscribe history c ind
  | .unsubscribe c ind => !env.unsubscribe history c ind
  | _ => false

/-- Some `Subscribe` or `Unsubscribe` among the events `ext`, appended to `log`, failed. -/
def Failed (env : Env) (log ext : List Event) : Prop :=
  ∃ pre e post, ext = pre ++ e :: post ∧ env.fails (log ++ pre) e = true

/-- The step ends the process exactly when one of its `Subscribe` or `Unsubscribe` calls
failed, and it does not block. -/
def FatalIff (env : Env) : List Event → Outcome → List Event → Prop :=
  fun log o ext => o ≠ .blocked ∧ (o = .fatal ↔ Failed env log ext)

/-- After every `Subscribe` that succeeded come the sleep of `sub`, the lines of the
values pushed meanwhile, and the `Unsubscribe` of the same characteristic and mode. -/
def Closed (env : Env) (sub : Duration) : List Event → Outcome → List Event → Prop :=
  fun log _ ext =>
    ∀ pre post c ind, ext = pre ++ .subscribe c ind :: post →
      env.subscribe (log ++ pre) c ind = true →
      ∃ rest, post = .sleep sub ::
        (env.pushed (log ++ pre ++ [.subscribe c ind]) c ind).map
          (fun b => Event.print (.pushed ind b)) ++ .unsubscribe c ind :: rest

/-- Before every indication `Subscribe` on a characteristic that has the notify bit
comes a whole notification session on that characteristic. -/
def NotifyFirst (sub : Duration) : List Event → Outcome → List Event → Prop :=
  fun _ _ ext =>
    ∀ pre post c, ext = pre ++ .subscribe c true :: post →
      Int.land c.Property CharNotify ≠ 0 →
      ∃ (p1 : List Event) (pushed : List Bytes) (p2 : List Event), pre = p1 ++ .subscribe c false :: .sleep sub ::
        pushed.map (fun b => Event.print (.pushed false b)) ++ .unsubscribe c false :: p2

/-- The devices `connect` was called with, in the order of the calls. -/
def attempts : List Event → List Advertisement
  | [] => []
  | .connect device :: es => device :: attempts es
  | _ :: es => attempts es

/-- The first snapshot of every distinct address of a list of devices, in the order in
which the addresses first occur. -/
def firstOccurrences : List Advertisement → List Advertisement
  | [] => []
  | d :: ds => d :: (firstOccurrences ds).filter (fun x => x.Addr ≠ d.Addr)

/-- The part of `explore` that comes before the loop body is run on a characteristic
of a target service `s`: the summary of the peripheral, the services `ss1` before `s`,
the service line of `s`, and the characteristics `cs1` before that characteristic. -/
def exploreUpTo (env : Env) (sub : Duration) (a : Advertisement) (log : List Event)
    (ss1 : List Service) (s : Service) (cs1 : List Characteristic) : Run :=
  match exploreServices env sub ss1 (log ++ (showDevice a).map .print) with
  | (.returned, log1) =>
    exploreCharacteristics env sub cs1 (log1 ++ [.print (.service s.UUID s.Handle)])
  | r => r

/-! ## Concrete runs -/

/-- A connectable peripheral. -/
def deviceA : Advertisement :=
  { Addr := "c0:00:00:00:00:01", Connectable := true, LocalName := "sensor", Services := [],
    ManufacturerData := [], RSSI := -60 }

/-- A second connectable peripheral, with another address. -/
def deviceB : Advertisement :=
  { Addr := "c0:00:00:00:00:02", Connectable := true, LocalName := "", Services := [],
    ManufacturerData := [], RSSI := -70 }

/-- A descriptor (client characteristic configuration). -/
def cccd : Descriptor := { UUID := ⟨"2902"⟩, Handle := 5 }

/-- A characteristic with the read and the notify bit and one descriptor. -/
def notifier : Characteristic :=
  { UUID := ⟨"2a37"⟩, Property := 0x12, Handle := 3, ValueHandle := 4, Descriptors := [cccd] }

/-- A characteristic with the notify and the indicate bit. -/
def both : Characteristic :=
  { UUID := ⟨"2a38"⟩, Property := 0x30, Handle := 6, ValueHandle := 7, Descriptors := [] }

/-- A profile whose only service is the target service. -/
def targetProfile : Profile :=
  { Services := [{ UUID := ⟨ServiceID⟩, Handle := 1, Characteristics := [notifier] }] }

/-- A profile whose target service has the characteristic `both`. -/
def bothProfile : Profile :=
  { Services := [{ UUID := ⟨ServiceID⟩, Handle := 1, Characteristics := [both] }] }

/-- A profile without the target service. -/
def otherProfile : Profile :=
  { Services := [{ UUID := ⟨"180f"⟩, Handle := 1, Characteristics := [notifier] }] }

/-- A run in which every call succeeds, nothing is pushed, and every peripheral has
the profile `targetProfile`. -/
def calm : Env :=
  { newDevice := true
    advertisements := [deviceA, deviceB, deviceA]
    scan := .deadlineExceeded
    connect := fun _ _ => true
    discoverProfile := fun _ => some targetProfile
    readLongCharacteristic := fun _ _ => some [1]
    readDescriptor := fun _ _ => some [0, 0]
    subscribe := fun _ _ _ => true
    pushed := fun _ _ _ => []
    unsubscribe := fun _ _ _ => true
    disconnected := fun _ => true
    range := fun _ => propTable }

/-- The run `calm`, except that every `Subscribe` fails. -/
def subscribeFails : Env := { calm with subscribe := fun _ _ _ => false }

/-- The run `calm`, except that every long-read fails. -/
def readFails : Env := { calm with readLongCharacteristic := fun _ _ => none }

/-- The run `calm`, except that `ble.Scan` returns an error of its own. -/
def scanFails : Env := { calm with scan := .other }

/-- The run `calm`, except that no `ble.Connect` succeeds. -/
def unreachable : Env := { calm with connect := fun _ _ => false }

/-- Options with a subscription window of one second. -/
def withWindow : Flags :=
  { device := "default", sub := 1000000000, sd := 5000000000, cd := 1000000000, dup := false }

/-- The target service with the two characteristics `both` and `notifier`. -/
def twoService : Service :=
  { UUID := ⟨ServiceID⟩, Handle := 1, Characteristics := [both, notifier] }

/-- A profile whose only service is `twoService`. -/
def twoProfile : Profile := { Services := [twoService] }

/-- The run `subscribeFails`, except that `ble.Connect` fails for the address of
`deviceA`. -/
def failA : Env :=
  { subscribeFails with connect := fun _ addr => addr != deviceA.Addr }

/-! ## Properties that pass from the steps of `explore` to the whole -/

section Lifting

variable {P : List Event → Outcome → List Event → Prop}

lemma Holds.skip (hP : Compositional P) (log : List Event) : Holds P log (.returned, log) :=
  ⟨[], by simp, hP.nil log⟩

lemma Holds.emit (hP : Compositional P) (log : List Event) (e : Event) (he : e.inert = true) :
    Holds P log (.returned, log ++ [e]) :=
  ⟨[e], rfl, hP.inert log e he⟩

lemma Holds.bind (hP : Compositional P) {log log1 : List Event} {r : Run}
    (h1 : Holds P log (.returned, log1)) (h2 : Holds P log1 r) : Holds P log r := by
  obtain ⟨ext1, e1, p1⟩ := h1
  obtain ⟨ext2, e2, p2⟩ := h2
  simp only at e1 p1
  subst e1
  exact ⟨ext1 ++ ext2, by rw [e2, List.append_assoc], hP.seq log ext1 r.1 ext2 p1 p2⟩

lemma Holds.after (hP : Compositional P) {log : List Event} {r : Run} (e : Event)
    (he : e.inert = true) (h : Holds P (log ++ [e]) r) : Holds P log r :=
  Holds.bind hP (Holds.emit hP log e he) h

lemma Holds.emits (hP : Compositional P) (es : List Event) (log : List Event)
    (he : ∀ e ∈ es, e.inert = true) : Holds P log (.returned, log ++ es) := by
  induction es generalizing log with
  | nil => simpa using Holds.skip hP log
  | cons e es ih =>
    refine Holds.after hP e (he e (List.mem_cons_self _ _)) ?_
    have := ih (log ++ [e]) (fun x hx => he x (List.mem_cons_of_mem _ hx))
    simpa using this

lemma holds_readDescriptors (hP : Compositional P) (env : Env) (ds : List Descriptor)
    (log : List Event) : Holds P log (.returned, readDescriptors env ds log) := by
  induction ds generalizing log with
  | nil => exact Holds.skip hP log
  | cons d ds ih =>
    unfold readDescriptors
    dsimp only
    refine Holds.after hP (.print (.descriptor d.UUID d.Handle)) rfl ?_
    cases env.readDescriptor (log ++ [.print (.descriptor d.UUID d.Handle)]) d with
    | none => exact Holds.after hP (.readDescriptor d) rfl (ih _)
    | some b =>
      dsimp only
      exact Holds.bind hP (Holds.emits hP [.readDescriptor d, .print (.value b)] _
        (by simp [Event.inert])) (ih _)

lemma holds_exploreCharacteristic (hP : Compositional P) (env : Env) (sub : Duration)
    (hall : ∀ c log, Holds P log (subscribeAll env sub c log))
    (c : Characteristic) (log : List Event) :
    Holds P log (exploreCharacteristic env sub c log) := by
  unfold exploreCharacteristic
  dsimp only
  refine Holds.after hP (.print (.characteristic c.UUID c.Property
    (propString (env.range log) c.Property) c.Handle c.ValueHandle)) rfl ?_
  by_cases hr : Int.land c.Property CharRead ≠ 0
  · rw [if_pos hr]
    split
    · exact Holds.emit hP _ _ rfl
    · rename_i b _
      exact Holds.bind hP (Holds.emits hP [.readLongCharacteristic c, .print (.value b)] _
        (by simp [Event.inert])) (Holds.bind hP (holds_readDescriptors hP env _ _) (hall c _))
  · rw [if_neg hr]
    exact Holds.bind hP (holds_readDescriptors hP env _ _) (hall c _)

lemma holds_exploreCharacteristics (hP : Compositional P) (env : Env) (sub : Duration)
    (hall : ∀ c log, Holds P log (subscribeAll env sub c log))
    (cs : List Characteristic) (log : List Event) :
    Holds P log (exploreCharacteristics env sub cs log) := by
  induction cs generalizing log with
  | nil => exact Holds.skip hP log
  | cons c cs ih =>
    unfold exploreCharacteristics
    have h := holds_exploreCharacteristic hP env sub hall c log
    rcases hr : exploreCharacteristic env sub c log with ⟨o, log1⟩
    rw [hr] at h
    cases o with
    | returned => exact Holds.bind hP h (ih log1)
    | fatal => exact h
    | blocked => exact h

lemma holds_exploreServices (hP : Compositional P) (env : Env) (sub : Duration)
    (hall : ∀ c log, Holds P log (subscribeAll env sub c log))
    (ss : List Service) (log : List Event) :
    Holds P log (exploreServices env sub ss log) := by
  induction ss generalizing log with
  | nil => exact Holds.skip hP log
  | cons s ss ih =>
    unfold exploreServices
    by_cases hs : s.UUID.String ≠ ServiceID
    · rw [if_pos hs]
      exact ih log
    · rw [if_neg hs]
      dsimp only
      refine Holds.after hP (.print (.service s.UUID s.Handle)) rfl ?_
      have h := holds_exploreCharacteristics hP env sub hall s.Characteristics
        (log ++ [.print (.service s.UUID s.Handle)])
      rcases hr : exploreCharacteristics env sub s.Characteristics
        (log ++ [.print (.service s.UUID s.Handle)]) with ⟨o, log1⟩
      rw [hr] at h
      try rw [hr]
      cases o with
      | returned => exact Holds.bind hP h (Holds.after hP (.print .newline) rfl (ih _))
      | fatal => exact h
      | blocked => exact h

lemma holds_explore (hP : Compositional P) (env : Env) (sub : Duration)
    (hall : ∀ c log, Holds P log (subscribeAll env sub c log))
    (p : Profile) (a : Advertisement) (log : List Event) :
    Holds P log (explore env sub p a log) := by
  unfold explore
  cases hf : foundService p.Services with
  | true =>
    simp only [Bool.not_true, Bool.false_eq_true, if_false]
    exact Holds.bind hP (Holds.emits hP _ log (by simp [Event.inert]))
      (holds_exploreServices hP env sub hall _ _)
  | false =>
    simp only [Bool.not_false, if_true]
    exact Holds.skip hP log

end Lifting

/-! ## Occurrences of an event in a log -/

lemma occ_append {ext1 ext2 pre post : List Event} {e : Event}
    (h : ext1 ++ ext2 = pre ++ e :: post) :
    (∃ post1, ext1 = pre ++ e :: post1 ∧ post = post1 ++ ext2) ∨
    (∃ pre2, pre = ext1 ++ pre2 ∧ ext2 = pre2 ++ e :: post) := by
  rcases List.append_eq_append_iff.mp h with ⟨a, h1, h2⟩ | ⟨c, h1, h2⟩
  · exact Or.inr ⟨a, h1, h2⟩
  · cases c with
    | nil =>
      refine Or.inr ⟨[], ?_, ?_⟩
      · simpa using h1.symm
      · simpa using h2.symm
    | cons x c =>
      simp only [List.cons_append, List.cons.injEq] at h2
      obtain ⟨hx, hpost⟩ := h2
      subst hx
      exact Or.inl ⟨c, h1, hpost⟩

lemma occ_unique (K : Event → Prop) {pre post pre0 post0 : List Event} {e e0 : Event}
    (h : pre ++ e :: post = pre0 ++ e0 :: post0) (hK : K e)
    (h1 : ∀ x ∈ pre0, ¬ K x) (h2 : ∀ x ∈ post0, ¬ K x) :
    pre = pre0 ∧ e = e0 ∧ post = post0 := by
  rcases List.append_eq_append_iff.mp h with ⟨a, ha, hb⟩ | ⟨c, ha, hb⟩
  · cases a with
    | nil =>
      simp only [List.nil_append, List.cons.injEq] at hb
      simp only [List.append_nil] at ha
      exact ⟨ha.symm, hb.1, hb.2⟩
    | cons x a =>
      simp only [List.cons_append, List.cons.injEq] at hb
      obtain ⟨hx, -⟩ := hb
      subst hx
      exact absurd hK (h1 e (by simp [ha]))
  · cases c with
    | nil =>
      simp only [List.nil_append, List.cons.injEq] at hb
      simp only [List.append_nil] at ha
      exact ⟨ha, hb.1.symm, hb.2.symm⟩
    | cons x c =>
      simp only [List.cons_append, List.cons.injEq] at hb
      obtain ⟨-, hpost⟩ := hb
      exact absurd hK (h2 e (by simp [hpost]))

lemma occ_mem {l pre post : List Event} {e : Event} (h : l = pre ++ e :: post) : e ∈ l := by
  simp [h]

/-! ## The events of one subscription block -/

lemma subscription_log (env : Env) (sub : Duration) (c : Characteristic) (ind : Bool)
    (log : List Event) :
    (subscription env sub c ind log).2 =
      log ++ .print (.subscribing ind sub) :: .subscribe c ind :: sessionTail env sub c ind log := by
  unfold subscription sessionTail
  dsimp only
  cases env.subscribe (log ++ [.print (.subscribing ind sub)]) c ind with
  | false => simp
  | true =>
    simp only [if_true]
    split <;> simp

lemma subscription_outcome (env : Env) (sub : Duration) (c : Characteristic) (ind : Bool)
    (log : List Event) :
    (subscription env sub c ind log).1 =
      if env.subscribe (log ++ [.print (.subscribing ind sub)]) c ind = true ∧
        env.unsubscribe (log ++ [.print (.subscribing ind sub)] ++ [.subscribe c ind] ++
          [.sleep sub] ++ (env.pushed (log ++ [.print (.subscribing ind sub)] ++
            [.subscribe c ind]) c ind).map (fun b => .print (.pushed ind b))) c ind = true
      then .returned else .fatal := by
  unfold subscription
  dsimp only
  cases env.subscribe (log ++ [.print (.subscribing ind sub)]) c ind with
  | false => simp
  | true =>
    simp only [if_true, true_and]
    split <;> simp_all

lemma sessionTail_no_subscribe (env : Env) (sub : Duration) (c : Characteristic) (ind : Bool)
    (log : List Event) : ∀ x ∈ sessionTail env sub c ind log, ¬ x.isSubscribe = true := by
  intro x hx
  unfold sessionTail at hx
  dsimp only at hx
  split at hx
  · simp only [List.cons_append, List.mem_cons, List.mem_append, List.mem_map,
      List.mem_singleton, List.not_mem_nil, or_false] at hx
    rcases hx with rfl | ⟨b, -, rfl⟩ | rfl | rfl
    · simp [Event.isSubscribe]
    · simp [Event.isSubscribe]
    · simp [Event.isSubscribe]
    · split <;> simp [Event.isSubscribe]
  · simp only [List.mem_singleton] at hx
    subst hx
    simp [Event.isSubscribe]

lemma subscription_occ (env : Env) (sub : Duration) (c : Characteristic) (ind : Bool)
    (log : List Event) {pre post : List Event} {c1 : Characteristic} {i1 : Bool}
    (h : Event.print (.subscribing ind sub) :: .subscribe c ind :: sessionTail env sub c ind log =
      pre ++ .subscribe c1 i1 :: post) :
    pre = [.print (.subscribing ind sub)] ∧ c1 = c ∧ i1 = ind ∧
      post = sessionTail env sub c ind log := by
  have hocc : pre ++ .subscribe c1 i1 :: post =
      [Event.print (.subscribing ind sub)] ++ .subscribe c ind :: sessionTail env sub c ind log := by
    simpa using h.symm
  obtain ⟨hp, hev, hpost⟩ := occ_unique (fun x => x.isSubscribe = true) hocc rfl
    (by simp [Event.isSubscribe]) (sessionTail_no_subscribe env sub c ind log)
  simp only [Event.subscribe.injEq] at hev
  exact ⟨hp, hev.1, hev.2, hpost⟩

lemma subscription_returned (env : Env) (sub : Duration) (c : Characteristic) (ind : Bool)
    (log log1 : List Event) (h : subscription env sub c ind log = (.returned, log1)) :
    ∃ pushed : List Bytes, log1 = log ++ (.print (.subscribing ind sub) :: .subscribe c ind :: .sleep sub ::
      pushed.map (fun b => Event.print (.pushed ind b)) ++
        [.unsubscribe c ind, .print (.unsubscribed ind)]) := by
  unfold subscription at h
  dsimp only at h
  split at h
  · split at h
    · simp only [Prod.mk.injEq, true_and] at h
      exact ⟨env.pushed (log ++ [.print (.subscribing ind sub)] ++ [.subscribe c ind]) c ind,
        by rw [← h]; simp⟩
    · simp at h
  · simp at h

section Lifting

variable {P : List Event → Outcome → List Event → Prop}

lemma holds_subscribeAll (hP : Compositional P) (env : Env) (sub : Duration)
    (hsub : ∀ c ind log, sub ≠ 0 → c.UUID ≠ ServiceChangedUUID →
      c.UUID ≠ MustParse "8667556C9A374C9184ED54EE27D90049" →
      Int.land c.Property (if ind = true then CharIndicate else CharNotify) ≠ 0 →
      Holds P log (subscription env sub c ind log))
    (c : Characteristic) (log : List Event) : Holds P log (subscribeAll env sub c log) := by
  unfold subscribeAll
  by_cases h0 : sub ≠ 0
  · rw [if_pos h0]
    by_cases h1 : c.UUID = ServiceChangedUUID
    · simp only [UUID.Equal, h1, decide_True, if_true]
      exact Holds.skip hP log
    · by_cases h2 : c.UUID = MustParse "8667556C9A374C9184ED54EE27D90049"
      · simp only [UUID.Equal, h1, h2, decide_True, decide_False, if_true, if_false,
          Bool.false_eq_true]
        exact Holds.skip hP log
      · simp only [UUID.Equal, h1, h2, decide_False, if_false, Bool.false_eq_true]
        have hI : ∀ log1, Holds P log1
            (if Int.land c.Property CharIndicate ≠ 0 then subscription env sub c true log1
             else (.returned, log1)) := by
          intro log1
          by_cases hi : Int.land c.Property CharIndicate ≠ 0
          · rw [if_pos hi]
            exact hsub c true log1 h0 h1 h2 (by simpa using hi)
          · rw [if_neg hi]
            exact Holds.skip hP log1
        by_cases hn : Int.land c.Property CharNotify ≠ 0
        · rw [if_pos hn]
          have h := hsub c false log h0 h1 h2 (by simpa using hn)
          rcases hr : subscription env sub c false log with ⟨o, log1⟩
          rw [hr] at h
          cases o with
          | returned => exact Holds.bind hP h (hI log1)
          | fatal => exact h
          | blocked => exact h
        · rw [if_neg hn]
          exact hI log
  · rw [if_neg h0]
    exact Holds.skip hP log

end Lifting

/-! ## Which events `explore` can produce -/

lemma allowed_of_inert (sub : Duration) (e : Event) (h : e.inert = true) : e.allowed sub := by
  cases e <;> simp_all [Event.inert, Event.allowed]

lemma shape_compositional (sub : Duration) : Compositional (Shape sub) where
  nil := fun _ => ⟨by simp, by simp⟩
  inert := fun _ e he => ⟨by simp, by simpa using allowed_of_inert sub e he⟩
  seq := by
    rintro _ ext1 o ext2 ⟨-, h1⟩ ⟨h2, h3⟩
    refine ⟨h2, ?_⟩
    intro e he
    rcases List.mem_append.mp he with h | h
    · exact h1 e h
    · exact h3 e h

lemma shape_subscription (env : Env) (sub : Duration) (c : Characteristic) (ind : Bool)
    (log : List Event) (h0 : sub ≠ 0) (h1 : c.UUID ≠ ServiceChangedUUID)
    (h2 : c.UUID ≠ MustParse "8667556C9A374C9184ED54EE27D90049")
    (h3 : Int.land c.Property (if ind = true then CharIndicate else CharNotify) ≠ 0) :
    Holds (Shape sub) log (subscription env sub c ind log) := by
  refine ⟨_, subscription_log env sub c ind log, ?_, ?_⟩
  · rw [subscription_outcome]
    split <;> simp
  · intro e he
    simp only [List.mem_cons] at he
    rcases he with rfl | rfl | he
    · trivial
    · exact ⟨h0, h1, h2, h3⟩
    · unfold sessionTail at he
      dsimp only at he
      split at he
      · simp only [List.cons_append, List.mem_cons, List.mem_append, List.mem_map,
          List.mem_singleton, List.not_mem_nil, or_false] at he
        rcases he with rfl | ⟨b, -, rfl⟩ | rfl | rfl
        · trivial
        · trivial
        · exact ⟨h0, h1, h2, h3⟩
        · split <;> trivial
      · simp only [List.mem_singleton] at he
        subst he
        trivial

lemma shape_explore (env : Env) (sub : Duration) (p : Profile) (a : Advertisement)
    (log : List Event) : Holds (Shape sub) log (explore env sub p a log) :=
  holds_explore (shape_compositional sub) env sub
    (holds_subscribeAll (shape_compositional sub) env sub
      (fun c ind log h0 h1 h2 h3 => shape_subscription env sub c ind log h0 h1 h2 h3)) p a log

/-! ## A fatal end comes from a failed `Subscribe` or `Unsubscribe` -/

lemma failed_append (env : Env) (log ext1 ext2 : List Event) :
    Failed env log (ext1 ++ ext2) ↔ Failed env log ext1 ∨ Failed env (log ++ ext1) ext2 := by
  constructor
  · rintro ⟨pre, e, post, h, hf⟩
    rcases occ_append h with ⟨post1, h1, -⟩ | ⟨pre2, h1, h2⟩
    · exact Or.inl ⟨pre, e, post1, h1, hf⟩
    · refine Or.inr ⟨pre2, e, post, h2, ?_⟩
      rw [List.append_assoc, ← h1]
      exact hf
  · rintro (⟨pre, e, post, h, hf⟩ | ⟨pre, e, post, h, hf⟩)
    · exact ⟨pre, e, post ++ ext2, by simp [h], hf⟩
    · exact ⟨ext1 ++ pre, e, post, by simp [h], by rw [← List.append_assoc]; exact hf⟩

lemma not_failed_of_no_call (env : Env) (log ext : List Event)
    (h : ∀ e ∈ ext, ∀ history, env.fails history e = false) : ¬ Failed env log ext := by
  rintro ⟨pre, e, post, he, hf⟩
  rw [h e (occ_mem he)] at hf
  exact Bool.false_ne_true hf

lemma fatalIff_compositional (env : Env) : Compositional (FatalIff env) where
  nil := fun log => ⟨by simp, by
    simp only [reduceCtorEq, false_iff]
    exact not_failed_of_no_call env log [] (by simp)⟩
  inert := fun log e he => ⟨by simp, by
    simp only [reduceCtorEq, false_iff]
    refine not_failed_of_no_call env log [e] ?_
    intro x hx history
    simp only [List.mem_singleton] at hx
    subst hx
    cases x <;> simp_all [Event.inert, Env.fails]⟩
  seq := by
    rintro log ext1 o ext2 ⟨-, h1⟩ ⟨h2, h3⟩
    refine ⟨h2, ?_⟩
    rw [failed_append, ← h3]
    have : ¬ Failed env log ext1 := fun hf => by
      have := h1.mpr hf
      simp at this
    simp [this]

lemma fatalIff_subscription (env : Env) (sub : Duration) (c : Characteristic) (ind : Bool)
    (log : List Event) : Holds (FatalIff env) log (subscription env sub c ind log) := by
  refine ⟨_, subscription_log env sub c ind log, ?_, ?_⟩
  · rw [subscription_outcome]
    split <;> simp
  · rw [subscription_outcome]
    unfold sessionTail
    dsimp only
    cases hs : env.subscribe (log ++ [.print (.subscribing ind sub)]) c ind with
    | false =>
      simp only [Bool.false_eq_true, false_and, if_false, true_iff]
      exact ⟨[.print (.subscribing ind sub)], .subscribe c ind, [.fatalf .subscribe], rfl,
        by simp [Env.fails, hs]⟩
    | true =>
      simp only [true_and, if_true]
      cases hu : env.unsubscribe (log ++ [.print (.subscribing ind sub)] ++ [.subscribe c ind]
        ++ [.sleep sub] ++ (env.pushed (log ++ [.print (.subscribing ind sub)] ++
          [.subscribe c ind]) c ind).map (fun b => .print (.pushed ind b))) c ind with
      | false =>
        simp only [Bool.false_eq_true, if_false, true_iff]
        refine ⟨.print (.subscribing ind sub) :: .subscribe c ind :: .sleep sub ::
          (env.pushed (log ++ [.print (.subscribing ind sub)] ++
          [.subscribe c ind]) c ind).map (fun b => .print (.pushed ind b)),
          .unsubscribe c ind, [.fatalf .unsubscribe], by simp, ?_⟩
        simp only [Env.fails, Bool.not_eq_eq_eq_not, Bool.not_true]
        rw [← hu]
        congr 1
        simp
      | true =>
        simp only [if_true, reduceCtorEq, false_iff]
        rintro ⟨pre, e, post, he, hf⟩
        cases e with
        | subscribe c1 i1 =>
          have hocc : ([Event.print (.subscribing ind sub)] : List Event) ++ .subscribe c ind ::
              (.sleep sub :: (env.pushed (log ++ [.print (.subscribing ind sub)] ++
                [.subscribe c ind]) c ind).map (fun b => Event.print (.pushed ind b)) ++
                [.unsubscribe c ind, .print (.unsubscribed ind)]) =
              pre ++ .subscribe c1 i1 :: post := by simpa using he
          obtain ⟨hp, hev, -⟩ := occ_unique (fun x => x.isSubscribe = true) hocc.symm
            rfl (by simp [Event.isSubscribe])
            (by
              intro x hx
              simp only [List.cons_append, List.mem_cons, List.mem_append, List.mem_map,
                List.mem_singleton, List.not_mem_nil, or_false] at hx
              rcases hx with rfl | ⟨b, -, rfl⟩ | rfl | rfl <;> simp [Event.isSubscribe])
          simp only [Event.subscribe.injEq] at hev
          obtain ⟨rfl, rfl⟩ := hev
          subst hp
          simp [Env.fails, hs] at hf
        | unsubscribe c1 i1 =>
          have hocc : (.print (.subscribing ind sub) :: .subscribe c ind :: .sleep sub ::
              (env.pushed (log ++ [.print (.subscribing ind sub)] ++
                [.subscribe c ind]) c ind).map (fun b => Event.print (.pushed ind b))) ++
                .unsubscribe c ind :: [.print (.unsubscribed ind)] =
              pre ++ .unsubscribe c1 i1 :: post := by simpa using he
          obtain ⟨hp, hev, -⟩ := occ_unique (fun x => x.isUnsubscribe = true) hocc.symm
            rfl
            (by
              intro x hx
              simp only [List.mem_cons, List.mem_map] at hx
              rcases hx with rfl | rfl | rfl | ⟨b, -, rfl⟩ <;> simp [Event.isUnsubscribe])
            (by simp [Event.isUnsubscribe])
          simp only [Event.unsubscribe.injEq] at hev
          obtain ⟨rfl, rfl⟩ := hev
          subst hp
          simp only [Env.fails] at hf
          simp only [List.append_assoc, List.cons_append, List.nil_append,
            List.singleton_append] at hu hf
          rw [hu] at hf
          simp at hf
        | _ => simp [Env.fails] at hf

lemma fatalIff_explore (env : Env) (sub : Duration) (p : Profile) (a : Advertisement)
    (log : List Event) : Holds (FatalIff env) log (explore env sub p a log) :=
  holds_explore (fatalIff_compositional env) env sub
    (holds_subscribeAll (fatalIff_compositional env) env sub
      (fun c ind log _ _ _ _ => fatalIff_subscription env sub c ind log)) p a log

/-! ## Every opened subscription is closed after the window -/

lemma closed_compositional (env : Env) (sub : Duration) : Compositional (Closed env sub) where
  nil := by
    intro log pre post c ind h
    simp at h
  inert := by
    intro log e he pre post c ind h
    have := occ_mem h
    simp only [List.mem_singleton] at this
    subst this
    simp [Event.inert] at he
  seq := by
    intro log ext1 o ext2 h1 h2 pre post c ind h hs
    rcases occ_append h with ⟨post1, e1, e2⟩ | ⟨pre2, e1, e2⟩
    · obtain ⟨rest, hr⟩ := h1 pre post1 c ind e1 hs
      exact ⟨rest ++ ext2, by rw [e2, hr]; simp⟩
    · subst e1
      rw [← List.append_assoc] at hs
      obtain ⟨rest, hr⟩ := h2 pre2 post c ind e2 hs
      exact ⟨rest, by rw [hr]; simp⟩

lemma closed_subscription (env : Env) (sub : Duration) (c : Characteristic) (ind : Bool)
    (log : List Event) : Holds (Closed env sub) log (subscription env sub c ind log) := by
  refine ⟨_, subscription_log env sub c ind log, ?_⟩
  intro pre post c1 i1 h hs
  obtain ⟨rfl, rfl, rfl, rfl⟩ := subscription_occ env sub c ind log h
  unfold sessionTail
  dsimp only
  rw [if_pos hs]
  exact ⟨_, rfl⟩

lemma closed_explore (env : Env) (sub : Duration) (p : Profile) (a : Advertisement)
    (log : List Event) : Holds (Closed env sub) log (explore env sub p a log) :=
  holds_explore (closed_compositional env sub) env sub
    (holds_subscribeAll (closed_compositional env sub) env sub
      (fun c ind log _ _ _ _ => closed_subscription env sub c ind log)) p a log

lemma notifyFirst_compositional (sub : Duration) : Compositional (NotifyFirst sub) where
  nil := by
    intro log pre post c h
    simp at h
  inert := by
    intro log e he pre post c h
    have := occ_mem h
    simp only [List.mem_singleton] at this
    subst this
    simp [Event.inert] at he
  seq := by
    intro log ext1 o ext2 h1 h2 pre post c h hn
    rcases occ_append h with ⟨post1, e1, -⟩ | ⟨pre2, e1, e2⟩
    · exact h1 pre post1 c e1 hn
    · obtain ⟨p1, pushed, p2, hp⟩ := h2 pre2 post c e2 hn
      exact ⟨ext1 ++ p1, pushed, p2, by rw [e1, hp]; simp⟩

lemma notifyFirst_subscribeAll (env : Env) (sub : Duration) (c : Characteristic)
    (log : List Event) : Holds (NotifyFirst sub) log (subscribeAll env sub c log) := by
  have hP := notifyFirst_compositional sub
  -- a notification block has no indication `Subscribe`
  have hN : ∀ log0, Holds (NotifyFirst sub) log0 (subscription env sub c false log0) := by
    intro log0
    refine ⟨_, subscription_log env sub c false log0, ?_⟩
    intro pre post c1 h _
    obtain ⟨-, -, hi, -⟩ := subscription_occ env sub c false log0 h
    simp at hi
  unfold subscribeAll
  by_cases h0 : sub ≠ 0
  · rw [if_pos h0]
    split
    · exact Holds.skip hP log
    · split
      · exact Holds.skip hP log
      · by_cases hn : Int.land c.Property CharNotify ≠ 0
        · rw [if_pos hn]
          have h := hN log
          rcases hr : subscription env sub c false log with ⟨o, log1⟩
          rw [hr] at h
          cases o with
          | fatal => exact h
          | blocked => exact h
          | returned =>
            dsimp only
            by_cases hi : Int.land c.Property CharIndicate ≠ 0
            · rw [if_pos hi]
              obtain ⟨pushed, hl⟩ := subscription_returned env sub c false log log1 hr
              refine ⟨_, by rw [subscription_log, hl, List.append_assoc], ?_⟩
              intro pre post c1 h1 _
              rcases occ_append h1 with ⟨post1, e1, -⟩ | ⟨pre2, e1, e2⟩
              · have hmem := occ_mem e1
                simp at hmem
              · obtain ⟨rfl, rfl, -, -⟩ := subscription_occ env sub c true _ e2
                exact ⟨[.print (.subscribing false sub)], pushed,
                  [.print (.unsubscribed false), .print (.subscribing true sub)],
                  by rw [e1]; simp⟩
            · rw [if_neg hi]
              exact h
        · rw [if_neg hn]
          dsimp only
          by_cases hi : Int.land c.Property CharIndicate ≠ 0
          · rw [if_pos hi]
            refine ⟨_, subscription_log env sub c true log, ?_⟩
            intro pre post c1 h1 hn1
            obtain ⟨-, rfl, -, -⟩ := subscription_occ env sub c true log h1
            exact absurd hn1 hn
          · rw [if_neg hi]
            exact Holds.skip hP log
  · rw [if_neg h0]
    exact Holds.skip hP log

lemma notifyFirst_explore (env : Env) (sub : Duration) (p : Profile) (a : Advertisement)
    (log : List Event) : Holds (NotifyFirst sub) log (explore env sub p a log) :=
  holds_explore (notifyFirst_compositional sub) env sub
    (notifyFirst_subscribeAll env sub) p a log

/-! ## The function `connect` -/

lemma attempts_append (l1 l2 : List Event) : attempts (l1 ++ l2) = attempts l1 ++ attempts l2 := by
  induction l1 with
  | nil => rfl
  | cons e es ih => cases e <;> simp [attempts, ih]

lemma attempts_allowed (sub : Duration) (l : List Event) (h : ∀ e ∈ l, e.allowed sub) :
    attempts l = [] := by
  induction l with
  | nil => rfl
  | cons e es ih =>
    have he := h e (List.mem_cons_self _ _)
    have ih1 := ih (fun x hx => h x (List.mem_cons_of_mem _ hx))
    cases e <;> simp_all [attempts, Event.allowed]

/-- What `connect` does once `ble.Connect` has succeeded: the events `mid` of the
exploration, then the disconnect request and the wait for the disconnection. -/
lemma connect_connected (env : Env) (sub : Duration) (device : Advertisement) (log : List Event)
    (hc : env.connect log device.Addr = true) :
    ∃ mid : List Event, (∀ e ∈ mid, e.allowed sub) ∧
      (env.discoverProfile (log ++ [.connect device]) = none ∧ mid = [] ∧
          (connect env sub device log).1 ≠ .fatal ∨
        ∃ p o, env.discoverProfile (log ++ [.connect device]) = some p ∧
          explore env sub p device (log ++ [.connect device] ++ [.discoverProfile]) =
            (o, log ++ [.connect device] ++ [.discoverProfile] ++ mid) ∧
          o ≠ .blocked ∧ (o = .fatal ↔ (connect env sub device log).1 = .fatal)) ∧
      (connect env sub device log =
          (.fatal, log ++ [.connect device] ++ [.discoverProfile] ++ mid) ∨
       (connect env sub device log = (.returned, log ++ [.connect device] ++ [.discoverProfile]
          ++ mid ++ [.cancelConnection] ++ [.disconnected]) ∧
        env.disconnected (log ++ [.connect device] ++ [.discoverProfile] ++ mid
          ++ [.cancelConnection]) = true) ∨
       (connect env sub device log = (.blocked, log ++ [.connect device] ++ [.discoverProfile]
          ++ mid ++ [.cancelConnection]) ∧
        env.disconnected (log ++ [.connect device] ++ [.discoverProfile] ++ mid
          ++ [.cancelConnection]) = false)) := by
  have key : connect env sub device log =
      match (match env.discoverProfile (log ++ [Event.connect device]) with
        | none => ((Outcome.returned,
            log ++ [Event.connect device] ++ [Event.discoverProfile]) : Run)
        | some p => explore env sub p device
            (log ++ [Event.connect device] ++ [Event.discoverProfile]))
      with
      | (Outcome.returned, log3) =>
        if env.disconnected (log3 ++ [Event.cancelConnection]) then
          (Outcome.returned, log3 ++ [Event.cancelConnection] ++ [Event.disconnected])
        else (Outcome.blocked, log3 ++ [Event.cancelConnection])
      | r => r := by
    unfold connect
    dsimp only
    rw [if_pos hc]
    rfl
  rw [key]
  cases hd : env.discoverProfile (log ++ [.connect device]) with
  | none =>
    dsimp only
    cases hx : env.disconnected (log ++ [.connect device] ++ [.discoverProfile] ++
      [.cancelConnection]) with
    | true =>
      refine ⟨[], by simp, Or.inl ⟨rfl, rfl, by simp⟩, ?_⟩
      rw [List.append_nil]
      right; left; exact ⟨by rw [if_pos rfl], hx⟩
    | false =>
      refine ⟨[], by simp, Or.inl ⟨rfl, rfl, by simp⟩, ?_⟩
      rw [List.append_nil]
      right; right; exact ⟨by rw [if_neg (by simp)], hx⟩
  | some p =>
    dsimp only
    obtain ⟨mid, hmid, hb, hall⟩ := shape_explore env sub p device
      (log ++ [.connect device] ++ [.discoverProfile])
    rcases hr : explore env sub p device (log ++ [.connect device] ++ [.discoverProfile])
      with ⟨o, log3⟩
    rw [hr] at hmid hb
    simp only at hmid hb
    subst hmid
    try rw [hr]
    cases o with
    | blocked => exact absurd rfl hb
    | fatal => exact ⟨mid, hall, Or.inr ⟨p, .fatal, rfl, hr, by simp, by simp⟩, Or.inl rfl⟩
    | returned =>
      dsimp only
      cases hx : env.disconnected (log ++ [.connect device] ++ [.discoverProfile] ++ mid ++
        [.cancelConnection]) with
      | true =>
        refine ⟨mid, hall, Or.inr ⟨p, .returned, rfl, hr, by simp, by simp [hx]⟩, Or.inr (Or.inl ?_)⟩
        exact ⟨by rw [if_pos rfl], hx⟩
      | false =>
        refine ⟨mid, hall, Or.inr ⟨p, .returned, rfl, hr, by simp, by simp [hx]⟩, Or.inr (Or.inr ?_)⟩
        exact ⟨by rw [if_neg (by simp)], hx⟩

lemma connect_refused (env : Env) (sub : Duration) (device : Advertisement) (log : List Event)
    (hc : env.connect log device.Addr = false) :
    connect env sub device log = (.returned, log ++ [.connect device]) := by
  unfold connect
  dsimp only
  rw [if_neg (by simp [hc])]

/-- The function `connect` appends its own `connect` event and no other. -/
lemma connect_attempts (env : Env) (sub : Duration) (device : Advertisement) (log : List Event) :
    ∃ ext, (connect env sub device log).2 = log ++ ext ∧ attempts ext = [device] := by
  cases hc : env.connect log device.Addr with
  | false =>
    rw [connect_refused env sub device log hc]
    exact ⟨[.connect device], rfl, rfl⟩
  | true =>
    obtain ⟨mid, hall, -, h | ⟨h, -⟩ | ⟨h, -⟩⟩ := connect_connected env sub device log hc
    all_goals
      rw [h]
      refine ⟨_, by simp only [List.append_assoc]; rfl, ?_⟩
      simp [attempts_append, attempts, attempts_allowed sub mid hall]

lemma firstOccurrences_filter (q : String → Bool) (l : List Advertisement) :
    firstOccurrences (l.filter (fun x => q x.Addr)) =
      (firstOccurrences l).filter (fun x => q x.Addr) := by
  induction l with
  | nil => rfl
  | cons x xs ih =>
    cases hq : q x.Addr with
    | true =>
      rw [List.filter_cons_of_pos (by simpa using hq)]
      simp only [firstOccurrences]
      rw [List.filter_cons_of_pos (by simpa using hq), ih, List.filter_filter, List.filter_filter]
      congr 1
      apply List.filter_congr
      intro y _
      exact Bool.and_comm _ _
    | false =>
      rw [List.filter_cons_of_neg (by simp [hq])]
      simp only [firstOccurrences]
      rw [List.filter_cons_of_neg (by simp [hq]), ih, List.filter_filter]
      apply List.filter_congr
      intro y _
      by_cases hy : y.Addr = x.Addr
      · simp [hy, hq]
      · simp [hy]

/-- The calls of `connect` the loop makes: an initial part of the first snapshots of
the addresses not yet in `previousDevices`, and all of them when the loop returns. -/
lemma connectLoop_attempts (env : Env) (sub : Duration) (devices : List Advertisement)
    (previousDevices : List String) (log : List Event) :
    ∃ ext rest, (connectLoop env sub devices previousDevices log).2 = log ++ ext ∧
      attempts ext ++ rest =
        firstOccurrences (devices.filter (fun d => decide (d.Addr ∉ previousDevices))) ∧
      ((connectLoop env sub devices previousDevices log).1 = .returned → rest = []) := by
  induction devices generalizing previousDevices log with
  | nil => exact ⟨[], [], by simp [connectLoop], rfl, fun _ => rfl⟩
  | cons d ds ih =>
    unfold connectLoop
    dsimp only
    by_cases hp : d.Addr ∈ previousDevices
    · rw [if_pos hp, List.filter_cons_of_neg (by simpa using hp)]
      exact ih previousDevices log
    · rw [if_neg hp, List.filter_cons_of_pos (by simpa using hp)]
      obtain ⟨ext1, hlog1, hatt1⟩ := connect_attempts env sub d log
      have hrest : firstOccurrences (ds.filter (fun x => decide (x.Addr ∉ d.Addr :: previousDevices))) =
          (firstOccurrences (ds.filter (fun x => decide (x.Addr ∉ previousDevices)))).filter
            (fun x => x.Addr ≠ d.Addr) := by
        rw [← firstOccurrences_filter (fun s => decide (s ≠ d.Addr)), List.filter_filter]
        congr 1
        apply List.filter_congr
        intro y _
        simp [List.mem_cons, not_or]
      rcases hr : connect env sub d log with ⟨o, log1⟩
      rw [hr] at hlog1
      simp only at hlog1
      subst hlog1
      cases o with
      | returned =>
        dsimp only
        obtain ⟨ext2, rest, h1, h2, h3⟩ := ih (d.Addr :: previousDevices) (log ++ ext1)
        refine ⟨ext1 ++ ext2, rest, by rw [h1, List.append_assoc], ?_, h3⟩
        rw [attempts_append, hatt1, firstOccurrences, ← hrest, ← h2]
        rfl
      | fatal =>
        refine ⟨ext1, (firstOccurrences (ds.filter
          (fun x => decide (x.Addr ∉ previousDevices)))).filter (fun x => x.Addr ≠ d.Addr),
          rfl, ?_, by simp⟩
        rw [hatt1, firstOccurrences]
        rfl
      | blocked =>
        refine ⟨ext1, (firstOccurrences (ds.filter
          (fun x => decide (x.Addr ∉ previousDevices)))).filter (fun x => x.Addr ≠ d.Addr),
          rfl, ?_, by simp⟩
        rw [hatt1, firstOccurrences]
        rfl

lemma firstOccurrences_sublist (l : List Advertisement) : (firstOccurrences l).Sublist l := by
  induction l with
  | nil => exact List.Sublist.slnil
  | cons x xs ih =>
    simp only [firstOccurrences]
    exact ((List.filter_sublist _).trans ih).cons₂ x

lemma firstOccurrences_nodup (l : List Advertisement) :
    ((firstOccurrences l).map (fun d => d.Addr)).Nodup := by
  induction l with
  | nil => exact List.nodup_nil
  | cons x xs ih =>
    simp only [firstOccurrences, List.map_cons, List.nodup_cons]
    refine ⟨?_, ?_⟩
    · simp [List.mem_map, List.mem_filter]
    · exact (ih.sublist ((List.filter_sublist _).map _))

lemma firstOccurrences_addr (l : List Advertisement) (d : Advertisement) (hd : d ∈ l) :
    d.Addr ∈ (firstOccurrences l).map (fun d => d.Addr) := by
  induction l with
  | nil => simp at hd
  | cons x xs ih =>
    simp only [firstOccurrences, List.map_cons, List.mem_cons]
    by_cases hx : d.Addr = x.Addr
    · exact Or.inl hx
    · right
      rcases List.mem_cons.mp hd with rfl | h
      · exact absurd rfl hx
      · obtain ⟨y, hy, hya⟩ := List.mem_map.mp (ih h)
        exact List.mem_map.mpr ⟨y, List.mem_filter.mpr ⟨hy, by simpa [hya] using hx⟩, hya⟩

lemma firstOccurrences_first (l : List Advertisement) (a : Advertisement)
    (ha : a ∈ firstOccurrences l) : l.find? (fun d => decide (d.Addr = a.Addr)) = some a := by
  induction l with
  | nil => simp [firstOccurrences] at ha
  | cons x xs ih =>
    simp only [firstOccurrences, List.mem_cons, List.mem_filter] at ha
    rcases ha with rfl | ⟨h1, h2⟩
    · simp
    · have hne : ¬ x.Addr = a.Addr := by
        intro h
        simp [h] at h2
      rw [List.find?_cons_of_neg _ (by simpa using hne)]
      exact ih h1

/-! ## The loop of `main` and `main` -/

lemma connect_fatal_iff (env : Env) (sub : Duration) (device : Advertisement)
    (log : List Event) :
    ∃ ext, (connect env sub device log).2 = log ++ ext ∧
      ((connect env sub device log).1 = .fatal ↔ Failed env log ext) := by
  have hno : ∀ l : List Event, (∀ e ∈ l, e = Event.connect device ∨ e = .discoverProfile ∨
      e = .cancelConnection ∨ e = .disconnected) → ∀ base, ¬ Failed env base l := by
    intro l hl base
    refine not_failed_of_no_call env base l ?_
    intro e he history
    rcases hl e he with rfl | rfl | rfl | rfl <;> rfl
  cases hc : env.connect log device.Addr with
  | false =>
    rw [connect_refused env sub device log hc]
    refine ⟨[.connect device], rfl, ?_⟩
    simp only [reduceCtorEq, false_iff]
    exact hno _ (by simp) log
  | true =>
    obtain ⟨mid, -, hmid, hcases⟩ := connect_connected env sub device log hc
    have hpre : ∀ tail : List Event, (∀ e ∈ tail, e = Event.connect device ∨
        e = .discoverProfile ∨ e = .cancelConnection ∨ e = .disconnected) →
        (Failed env log ([.connect device] ++ [.discoverProfile] ++ mid ++ tail) ↔
          Failed env (log ++ [.connect device] ++ [.discoverProfile]) mid) := by
      intro tail htail
      rw [failed_append, failed_append]
      have h1 := hno ([.connect device] ++ [.discoverProfile]) (by simp) log
      have h2 := hno tail htail (log ++ ([.connect device] ++ [.discoverProfile] ++ mid))
      simp only [List.append_assoc] at h1 h2 ⊢
      simp only [h1, h2, false_or, or_false]
    have hmidF : (connect env sub device log).1 = .fatal ↔
        Failed env (log ++ [.connect device] ++ [.discoverProfile]) mid := by
      rcases hmid with ⟨-, rfl, hnf⟩ | ⟨p, o, -, hexp, -, ho⟩
      · simp only [hnf, false_iff]
        exact not_failed_of_no_call env _ [] (by simp)
      · obtain ⟨ext, hext, -, hiff⟩ := fatalIff_explore env sub p device
          (log ++ [.connect device] ++ [.discoverProfile])
        rw [hexp] at hext hiff
        simp only [List.append_cancel_left_eq] at hext
        subst hext
        rw [← ho]
        exact hiff
    rcases hcases with h | ⟨h, -⟩ | ⟨h, -⟩
    · refine ⟨[.connect device] ++ [.discoverProfile] ++ mid, by rw [h]; simp, ?_⟩
      rw [hmidF]
      simpa using (hpre [] (by simp)).symm
    · refine ⟨[.connect device] ++ [.discoverProfile] ++ mid ++ [.cancelConnection, .disconnected],
        by rw [h]; simp, ?_⟩
      rw [hmidF]
      exact (hpre _ (by simp)).symm
    · refine ⟨[.connect device] ++ [.discoverProfile] ++ mid ++ [.cancelConnection],
        by rw [h]; simp, ?_⟩
      rw [hmidF]
      exact (hpre _ (by simp)).symm

lemma connectLoop_fatal_iff (env : Env) (sub : Duration) (devices : List Advertisement)
    (previousDevices : List String) (log : List Event) :
    ∃ ext, (connectLoop env sub devices previousDevices log).2 = log ++ ext ∧
      ((connectLoop env sub devices previousDevices log).1 = .fatal ↔ Failed env log ext) := by
  induction devices generalizing previousDevices log with
  | nil =>
    refine ⟨[], by simp [connectLoop], ?_⟩
    simp only [connectLoop, reduceCtorEq, false_iff]
    exact not_failed_of_no_call env log [] (by simp)
  | cons d ds ih =>
    unfold connectLoop
    dsimp only
    by_cases hp : d.Addr ∈ previousDevices
    · rw [if_pos hp]
      exact ih previousDevices log
    · rw [if_neg hp]
      obtain ⟨ext1, hlog1, hiff1⟩ := connect_fatal_iff env sub d log
      rcases hr : connect env sub d log with ⟨o, log1⟩
      rw [hr] at hlog1 hiff1
      simp only at hlog1 hiff1
      subst hlog1
      cases o with
      | returned =>
        dsimp only
        obtain ⟨ext2, h1, h2⟩ := ih (d.Addr :: previousDevices) (log ++ ext1)
        refine ⟨ext1 ++ ext2, by rw [h1, List.append_assoc], ?_⟩
        rw [failed_append, h2]
        have : ¬ Failed env log ext1 := fun hf => by simpa using hiff1.mpr hf
        simp [this]
      | fatal => exact ⟨ext1, rfl, hiff1⟩
      | blocked => exact ⟨ext1, rfl, hiff1⟩

lemma connect_not_blocked (env : Env) (sub : Duration) (device : Advertisement)
    (log : List Event) (hd : ∀ history, env.disconnected history = true) :
    (connect env sub device log).1 ≠ .blocked := by
  cases hc : env.connect log device.Addr with
  | false => rw [connect_refused env sub device log hc]; simp
  | true =>
    obtain ⟨mid, -, -, h | ⟨h, -⟩ | ⟨-, h⟩⟩ := connect_connected env sub device log hc
    · rw [h]; simp
    · rw [h]; simp
    · rw [hd] at h
      exact absurd h (by simp)

lemma connectLoop_not_blocked (env : Env) (sub : Duration) (devices : List Advertisement)
    (previousDevices : List String) (log : List Event)
    (hd : ∀ history, env.disconnected history = true) :
    (connectLoop env sub devices previousDevices log).1 ≠ .blocked := by
  induction devices generalizing previousDevices log with
  | nil => simp [connectLoop]
  | cons d ds ih =>
    unfold connectLoop
    dsimp only
    by_cases hp : d.Addr ∈ previousDevices
    · rw [if_pos hp]
      exact ih previousDevices log
    · rw [if_neg hp]
      have h := connect_not_blocked env sub d log hd
      rcases hr : connect env sub d log with ⟨o, log1⟩
      rw [hr] at h
      cases o with
      | returned => exact ih _ _
      | fatal => simp
      | blocked => exact absurd rfl h

lemma failed_iff (env : Env) (l : List Event) :
    Failed env [] l ↔
      (∃ pre post c ind, l = pre ++ Event.subscribe c ind :: post ∧
        env.subscribe pre c ind = false) ∨
      (∃ pre post c ind, l = pre ++ Event.unsubscribe c ind :: post ∧
        env.unsubscribe pre c ind = false) := by
  constructor
  · rintro ⟨pre, e, post, h, hf⟩
    cases e with
    | subscribe c ind => exact Or.inl ⟨pre, post, c, ind, h, by simpa [Env.fails] using hf⟩
    | unsubscribe c ind => exact Or.inr ⟨pre, post, c, ind, h, by simpa [Env.fails] using hf⟩
    | _ => simp [Env.fails] at hf
  · rintro (⟨pre, post, c, ind, h, hf⟩ | ⟨pre, post, c, ind, h, hf⟩)
    · exact ⟨pre, _, post, h, by simp [Env.fails, hf]⟩
    · exact ⟨pre, _, post, h, by simp [Env.fails, hf]⟩

/-- The three ways `main` ends, with its log. -/
lemma main_cases (env : Env) (flags : Flags) :
    (env.newDevice = false ∧ main env flags = (.fatal, [.fatalf .newDevice])) ∨
    (env.newDevice = true ∧ env.scan = .other ∧
      main env flags = (.fatal, [.print (.scanning flags.sd), .fatalf .scan])) ∨
    (env.newDevice = true ∧ env.scan ≠ .other ∧
      ∃ (line : List Event) (o : Outcome) (ext : List Event), (∀ e ∈ line, e.inert = true) ∧
        connectLoop env flags.sub (scanned env) []
          ([.print (.scanning flags.sd)] ++ line ++ [.print .connecting]) =
          (o, [.print (.scanning flags.sd)] ++ line ++ [.print .connecting] ++ ext) ∧
        main env flags = (o, [.print (.scanning flags.sd)] ++ line ++ [.print .connecting] ++ ext
          ++ (if o = .returned then [.print .done] else []))) := by
  unfold main
  cases hn : env.newDevice with
  | false => left; simp
  | true =>
    right
    simp only [Bool.not_true, Bool.false_eq_true, if_false, true_and]
    have hloop : ∀ line : List Event, ∃ (o : Outcome) (ext : List Event),
        connectLoop env flags.sub (scanned env) []
          ([.print (.scanning flags.sd)] ++ line ++ [.print .connecting]) =
          (o, [.print (.scanning flags.sd)] ++ line ++ [.print .connecting] ++ ext) := by
      intro line
      obtain ⟨ext, h, -⟩ := connectLoop_fatal_iff env flags.sub (scanned env) []
        ([.print (.scanning flags.sd)] ++ line ++ [.print .connecting])
      exact ⟨_, ext, Prod.ext rfl h⟩
    cases hs : env.scan with
    | other => left; simp [chkErr]
    | none =>
      right
      obtain ⟨o, ext, h⟩ := hloop []
      refine ⟨by simp, [], o, ext, by simp, h, ?_⟩
      simp only [chkErr, List.append_nil] at h ⊢
      rw [h]
      cases o <;> simp
    | deadlineExceeded =>
      right
      obtain ⟨o, ext, h⟩ := hloop [.print (.scanned (scanned env).length)]
      refine ⟨by simp, [.print (.scanned (scanned env).length)], o, ext, by simp [Event.inert],
        h, ?_⟩
      simp only [chkErr]
      rw [h]
      cases o <;> simp
    | canceled =>
      right
      obtain ⟨o, ext, h⟩ := hloop [.print .canceled]
      refine ⟨by simp, [.print .canceled], o, ext, by simp [Event.inert], h, ?_⟩
      simp only [chkErr]
      rw [h]
      cases o <;> simp

/-! ## The advertisement handler -/

lemma foldl_advHandler (events devices : List Advertisement) :
    events.foldl advHandler devices = devices ++ events.filter (fun a => a.Connectable) := by
  induction events generalizing devices with
  | nil => simp
  | cons a as ih =>
    rw [List.foldl_cons, ih]
    cases h : a.Connectable <;> simp [advHandler, h]

/-- C1: starting from an empty `devices` list, after `advHandler` has handled a sequence
of advertisements the list holds exactly the connectable ones, in arrival order and
with repetitions; so no advertisement that is not connectable is in it. -/
theorem advHandler_collects (events : List Advertisement) :
    events.foldl advHandler [] = events.filter (fun a => a.Connectable) ∧
    ∀ a ∈ events.foldl advHandler [], a.Connectable = true := by
  rw [foldl_advHandler]
  simp

/-! ## The letters of `propString` -/

lemma propString_data (p : Property) (order : List (Property × String)) (s : String) :
    (order.foldl (fun s kv => if Int.land p kv.1 ≠ 0 then s ++ kv.2 else s) s).data =
      s.data ++ ((order.filter (fun kv => decide (Int.land p kv.1 ≠ 0))).map
        (fun kv => kv.2.data)).flatten := by
  induction order generalizing s with
  | nil => simp
  | cons kv kvs ih =>
    rw [List.foldl_cons, ih]
    by_cases h : Int.land p kv.1 = 0
    · simp [h]
    · simp [h, String.data_append]

lemma count_letters (q : Property × String → Bool) (ch : Char) (l : List (Property × String)) :
    ((l.filter q).map (fun kv => kv.2.data)).flatten.count ch =
      (l.map (fun kv => if q kv = true then kv.2.data.count ch else 0)).sum := by
  induction l with
  | nil => rfl
  | cons kv kvs ih =>
    cases h : q kv with
    | true => simp [List.filter_cons, h, ih]
    | false => simp [List.filter_cons, h, ih]

lemma length_letters (q : Property × String → Bool) (l : List (Property × String))
    (h1 : ∀ kv ∈ l, kv.2.data.length = 1) :
    ((l.filter q).map (fun kv => kv.2.data)).flatten.length = (l.filter q).length := by
  induction l with
  | nil => rfl
  | cons kv kvs ih =>
    have hk := h1 kv (List.mem_cons_self _ _)
    have ih1 := ih (fun x hx => h1 x (List.mem_cons_of_mem _ hx))
    cases h : q kv with
    | true =>
      simp only [List.filter_cons, h, if_true, List.map_cons, List.flatten_cons,
        List.length_append, List.length_cons, hk, ih1]
      omega
    | false => simpa [List.filter_cons, h] using ih1

/-- C10: whatever the order in which `range` visits the map, `propString(p)` consists of
the letters of the flags of `p` that are set among the eight of the map, each once and
no other character: it is a permutation of those letters, its length is the number of
set flags, a letter occurs once if its flag is set and not at all otherwise, and the
result is empty when no flag is set.  The order of the letters is not fixed: two orders
of the map give different texts for the same `p`. -/
theorem propString_letters :
    (∀ (order : List (Property × String)) (p : Property), order.Perm propTable →
      (propString order p).data.Perm
        ((propTable.filter (fun kv => decide (Int.land p kv.1 ≠ 0))).map
          (fun kv => kv.2.data)).flatten ∧
      (propString order p).length =
        (propTable.filter (fun kv => decide (Int.land p kv.1 ≠ 0))).length ∧
      (∀ kv ∈ propTable, ∀ ch ∈ kv.2.data,
        (propString order p).data.count ch = if Int.land p kv.1 ≠ 0 then 1 else 0) ∧
      ((∀ kv ∈ propTable, Int.land p kv.1 = 0) → propString order p = "")) ∧
    (∃ order1 order2 : List (Property × String), order1.Perm propTable ∧
      order2.Perm propTable ∧ propString order1 0x12 = "RN" ∧ propString order2 0x12 = "NR") := by
  refine ⟨?_, propTable, propTable.reverse, List.Perm.refl _, List.reverse_perm _,
    by decide, by decide⟩
  intro order p horder
  have hdata : (propString order p).data =
      ((order.filter (fun kv => decide (Int.land p kv.1 ≠ 0))).map
        (fun kv => kv.2.data)).flatten := by
    unfold propString
    rw [propString_data]
    rfl
  have hperm : (propString order p).data.Perm
      ((propTable.filter (fun kv => decide (Int.land p kv.1 ≠ 0))).map
        (fun kv => kv.2.data)).flatten := by
    rw [hdata]
    exact ((horder.filter _).map _).flatten
  refine ⟨hperm, ?_, ?_, ?_⟩
  · rw [String.length, hperm.length_eq]
    exact length_letters _ propTable (by decide)
  · intro kv hkv ch hch
    rw [hperm.count_eq, count_letters]
    simp only [propTable, List.mem_cons, List.mem_singleton, List.not_mem_nil, or_false] at hkv
    rcases hkv with rfl | rfl | rfl | rfl | rfl | rfl | rfl | rfl <;>
      · simp only [List.mem_singleton, String.data] at hch
        subst hch
        simp [propTable]
  · intro hnone
    have : propTable.filter (fun kv => decide (Int.land p kv.1 ≠ 0)) = [] := by
      rw [List.filter_eq_nil_iff]
      intro kv hkv
      simp [hnone kv hkv]
    rw [this] at hperm
    have hnil : (propString order p).data = [] := by simpa using hperm
    exact String.ext hnil

/-- C10, an instance: with the order in which the map is written, the flags read and
notify give the two letters `R` and `N`. -/
theorem propString_letters_witness :
    propTable.Perm propTable ∧ (propString propTable 0x12).length =
      (propTable.filter (fun kv => decide (Int.land 0x12 kv.1 ≠ 0))).length :=
  ⟨List.Perm.refl _, (propString_letters.1 propTable 0x12 (List.Perm.refl _)).2.1⟩

/-! ## Exploring a profile without the target service -/

lemma foundService_false (ss : List Service) (h : ∀ s ∈ ss, s.UUID.String ≠ ServiceID) :
    foundService ss = false := by
  induction ss with
  | nil => rfl
  | cons s ss ih =>
    unfold foundService
    rw [if_neg (h s (List.mem_cons_self _ _))]
    exact ih (fun x hx => h x (List.mem_cons_of_mem _ hx))

/-- C5: when no service of the profile has the UUID text `ServiceID`, `explore` returns
with the log unchanged: it prints nothing, not even the summary line of the
peripheral, and makes no read, descriptor-read, subscribe or unsubscribe call,
whatever the advertisement and the subscription window. -/
theorem explore_without_target_service (env : Env) (sub : Duration) (p : Profile)
    (a : Advertisement) (log : List Event)
    (h : ∀ s ∈ p.Services, s.UUID.String ≠ ServiceID) :
    explore env sub p a log = (.returned, log) := by
  unfold explore
  rw [foundService_false p.Services h]
  rfl

/-- C5, an instance: a profile whose only service is the battery service. -/
theorem explore_without_target_service_witness :
    (∀ s ∈ otherProfile.Services, s.UUID.String ≠ ServiceID) ∧
    explore calm 1 otherProfile deviceA [] = (.returned, []) :=
  ⟨by decide, explore_without_target_service calm 1 otherProfile deviceA [] (by decide)⟩

/-! ## The connection loop -/

/-- C2, as stated, fails: with the devices `deviceA` and `deviceB`, of different
addresses, and a `Subscribe` that fails while `deviceA` is explored, the process ends
in `log.Fatalf` and `connect` is never called for `deviceB`. -/
theorem connectLoop_stops_at_fatal :
    firstOccurrences [deviceA, deviceB] = [deviceA, deviceB] ∧
    connectLoop subscribeFails 1 [deviceA, deviceB] [] [] =
      (.fatal,
        [.connect deviceA, .discoverProfile,
         .print (.device "c0:00:00:00:00:01" (-60)), .print (.name "sensor"), .print .newline,
         .print (.service ⟨"b82ab3fc15954f6a80f0fe094cc218f9"⟩ 1),
         .print (.characteristic ⟨"2a37"⟩ 18 "RN" 3 4),
         .readLongCharacteristic notifier, .print (.value [1]),
         .print (.descriptor ⟨"2902"⟩ 5), .readDescriptor cccd, .print (.value [0, 0]),
         .print (.subscribing false 1), .subscribe notifier false, .fatalf .subscribe]) ∧
    attempts (connectLoop subscribeFails 1 [deviceA, deviceB] [] []).2 = [deviceA] := by
  decide

/-- C2, amended: the calls of `connect` the loop makes are, in order, an initial part of
the first snapshots of the distinct addresses of `devices` in order of first occurrence,
and all of them when the loop returns (no call ended the process or waits for ever); no
two calls are for the same address.
Those snapshots have pairwise different addresses, cover every address of `devices`,
keep the order of `devices`, and each is the first device of its address. -/
theorem connectLoop_connects_first_occurrences (env : Env) (sub : Duration)
    (devices : List Advertisement) (log : List Event) :
    (∃ ext rest, (connectLoop env sub devices [] log).2 = log ++ ext ∧
      attempts ext ++ rest = firstOccurrences devices ∧
      ((connectLoop env sub devices [] log).1 = .returned → rest = []) ∧
      ((attempts ext).map (fun d => d.Addr)).Nodup) ∧
    ((firstOccurrences devices).map (fun d => d.Addr)).Nodup ∧
    (∀ d ∈ devices, d.Addr ∈ (firstOccurrences devices).map (fun d => d.Addr)) ∧
    (firstOccurrences devices).Sublist devices ∧
    (∀ a ∈ firstOccurrences devices,
      devices.find? (fun d => decide (d.Addr = a.Addr)) = some a) := by
  refine ⟨?_, firstOccurrences_nodup devices, firstOccurrences_addr devices,
    firstOccurrences_sublist devices, firstOccurrences_first devices⟩
  obtain ⟨ext, rest, h1, h2, h3⟩ := connectLoop_attempts env sub devices [] log
  have h4 : attempts ext ++ rest = firstOccurrences devices := by
    rw [h2]
    congr 1
    simp
  refine ⟨ext, rest, h1, h4, h3, ?_⟩
  have hnd := firstOccurrences_nodup devices
  rw [← h4, List.map_append] at hnd
  exact (List.nodup_append.mp hnd).1

/-- C2, an instance: three collected devices with two addresses, every call
succeeding; `connect` is called for the first snapshot of each address. -/
theorem connectLoop_connects_first_occurrences_witness :
    (connectLoop calm 1 [deviceA, deviceB, deviceA] [] []).1 = .returned ∧
    attempts (connectLoop calm 1 [deviceA, deviceB, deviceA] [] []).2 = [deviceA, deviceB] ∧
    ∃ ext rest, (connectLoop calm 1 [deviceA, deviceB, deviceA] [] []).2 = [] ++ ext ∧
      attempts ext ++ rest = firstOccurrences [deviceA, deviceB, deviceA] ∧
      ((connectLoop calm 1 [deviceA, deviceB, deviceA] [] []).1 = .returned → rest = []) ∧
      ((attempts ext).map (fun d => d.Addr)).Nodup :=
  ⟨by decide, by decide,
    (connectLoop_connects_first_occurrences calm 1 [deviceA, deviceB, deviceA] []).1⟩

/-- C4, as stated, fails: in the runs `failA` and `subscribeFails`, which differ only in
the answer of `ble.Connect` for `deviceA`, every `Subscribe` fails.  When the attempt on
`deviceA` fails, `deviceB` is attempted afterwards; when it succeeds, the exploration of
`deviceA` ends the process and nothing is attempted afterwards. -/
theorem connect_success_changes_later_attempts :
    failA.connect [] deviceA.Addr = false ∧ subscribeFails.connect [] deviceA.Addr = true ∧
    attempts (connectLoop failA 1 [deviceA, deviceB] [] []).2 = [deviceA, deviceB] ∧
    (connectLoop subscribeFails 1 [deviceA, deviceB] [] []).1 = .fatal ∧
    attempts (connectLoop subscribeFails 1 [deviceA, deviceB] [] []).2 = [deviceA] := by
  decide

/-- C4, amended: when `ble.Connect` fails for a device not connected to before, `connect`
returns having done nothing else (no output, no `DiscoverProfile`, no exploration, no
`CancelConnection`), and the loop goes on with the remaining devices and with the
address marked as visited.  That is the state from which the loop goes on after any
call of `connect` that returns, whether `ble.Connect` succeeded or not.  From that
state the devices attempted afterwards are an initial part of the first snapshots of
the remaining addresses not yet visited, and all of them when the loop runs to its end;
so two runs that both reach the end of the loop attempt the same devices afterwards. -/
theorem connect_failure_is_skipped (env : Env) (sub : Duration) (device : Advertisement)
    (devices : List Advertisement) (previousDevices : List String) (log : List Event)
    (hnew : device.Addr ∉ previousDevices)
    (hfail : env.connect log device.Addr = false) :
    connect env sub device log = (.returned, log ++ [.connect device]) ∧
    connectLoop env sub (device :: devices) previousDevices log =
      connectLoop env sub devices (device.Addr :: previousDevices) (log ++ [.connect device]) ∧
    (∀ (env2 : Env) (log2 log3 : List Event),
      connect env2 sub device log2 = (.returned, log3) →
      connectLoop env2 sub (device :: devices) previousDevices log2 =
        connectLoop env2 sub devices (device.Addr :: previousDevices) log3) ∧
    (∀ (env2 : Env) (log3 : List Event), ∃ ext rest,
      (connectLoop env2 sub devices (device.Addr :: previousDevices) log3).2 = log3 ++ ext ∧
      attempts ext ++ rest = firstOccurrences
        (devices.filter (fun d => decide (d.Addr ∉ device.Addr :: previousDevices))) ∧
      ((connectLoop env2 sub devices (device.Addr :: previousDevices) log3).1 = .returned →
        rest = [])) ∧
    (∀ (env1 env2 : Env) (log1 log2 ext1 ext2 : List Event),
      connectLoop env1 sub devices (device.Addr :: previousDevices) log1 =
        (.returned, log1 ++ ext1) →
      connectLoop env2 sub devices (device.Addr :: previousDevices) log2 =
        (.returned, log2 ++ ext2) →
      attempts ext1 = attempts ext2) := by
  have hstep : ∀ (env2 : Env) (log2 log3 : List Event),
      connect env2 sub device log2 = (.returned, log3) →
      connectLoop env2 sub (device :: devices) previousDevices log2 =
        connectLoop env2 sub devices (device.Addr :: previousDevices) log3 := by
    intro env2 log2 log3 h
    rw [connectLoop]
    simp only [if_neg hnew, h]
  have hall : ∀ (env1 : Env) (log1 ext1 : List Event),
      connectLoop env1 sub devices (device.Addr :: previousDevices) log1 =
        (.returned, log1 ++ ext1) →
      attempts ext1 = firstOccurrences
        (devices.filter (fun d => decide (d.Addr ∉ device.Addr :: previousDevices))) := by
    intro env1 log1 ext1 h
    obtain ⟨ext, rest, h1, h2, h3⟩ :=
      connectLoop_attempts env1 sub devices (device.Addr :: previousDevices) log1
    rw [h] at h1 h3
    have hext := List.append_cancel_left h1
    have hrest := h3 rfl
    rw [← h2, hrest, List.append_nil, hext]
  have hret := connect_refused env sub device log hfail
  refine ⟨hret, hstep env log _ hret, hstep,
    fun env2 log3 => connectLoop_attempts env2 sub devices (device.Addr :: previousDevices) log3,
    ?_⟩
  intro env1 env2 log1 log2 ext1 ext2 h1 h2
  rw [hall env1 log1 ext1 h1, hall env2 log2 ext2 h2]

/-- C4, an instance: no peripheral can be reached; the loop still tries both. -/
theorem connect_failure_is_skipped_witness :
    deviceA.Addr ∉ ([] : List String) ∧ unreachable.connect [] deviceA.Addr = false ∧
    connect unreachable 1 deviceA [] = (.returned, [.connect deviceA]) ∧
    connectLoop unreachable 1 [deviceA, deviceB] [] [] =
      (.returned, [.connect deviceA, .connect deviceB]) :=
  ⟨by decide, by decide,
    (connect_failure_is_skipped unreachable 1 deviceA [deviceB] [] [] (by decide)
      (by decide)).1, by decide⟩

/-! ## Disconnecting -/

/-- C3, as stated, fails: `ble.Connect` succeeds for `deviceA`, a `Subscribe` fails
during the exploration, the process ends in `log.Fatalf`, and `CancelConnection` is
never called. -/
theorem connect_fatal_skips_disconnect :
    subscribeFails.connect [] deviceA.Addr = true ∧
    connect subscribeFails 1 deviceA [] =
      (.fatal,
        [.connect deviceA, .discoverProfile,
         .print (.device "c0:00:00:00:00:01" (-60)), .print (.name "sensor"), .print .newline,
         .print (.service ⟨"b82ab3fc15954f6a80f0fe094cc218f9"⟩ 1),
         .print (.characteristic ⟨"2a37"⟩ 18 "RN" 3 4),
         .readLongCharacteristic notifier, .print (.value [1]),
         .print (.descriptor ⟨"2902"⟩ 5), .readDescriptor cccd, .print (.value [0, 0]),
         .print (.subscribing false 1), .subscribe notifier false, .fatalf .subscribe]) ∧
    (connect subscribeFails 1 deviceA []).2.count .cancelConnection = 0 := by
  decide

/-- C3, amended: when `ble.Connect` succeeds and the exploration does not end the
process, `connect` appends, in this order, its `connect` event, `DiscoverProfile`, the
events `mid` of the exploration (none when the discovery failed), and one
`CancelConnection`; `mid` holds no `CancelConnection`, so the request is made once.
Then either the disconnection is seen and `connect` returns, or it never comes and
`connect` does not return. -/
theorem connect_disconnects_once (env : Env) (sub : Duration) (device : Advertisement)
    (log : List Event) (hc : env.connect log device.Addr = true)
    (hf : (connect env sub device log).1 ≠ .fatal) :
    ∃ mid : List Event,
      (∀ e ∈ mid, e ≠ .cancelConnection ∧ e ≠ .disconnected) ∧
      (env.discoverProfile (log ++ [.connect device]) = none ∧ mid = [] ∨
        ∃ p, env.discoverProfile (log ++ [.connect device]) = some p ∧
          explore env sub p device (log ++ [.connect device] ++ [.discoverProfile]) =
            (.returned, log ++ [.connect device] ++ [.discoverProfile] ++ mid)) ∧
      ((connect env sub device log = (.returned, log ++ [.connect device] ++ [.discoverProfile]
          ++ mid ++ [.cancelConnection] ++ [.disconnected]) ∧
        env.disconnected (log ++ [.connect device] ++ [.discoverProfile] ++ mid
          ++ [.cancelConnection]) = true) ∨
       (connect env sub device log = (.blocked, log ++ [.connect device] ++ [.discoverProfile]
          ++ mid ++ [.cancelConnection]) ∧
        env.disconnected (log ++ [.connect device] ++ [.discoverProfile] ++ mid
          ++ [.cancelConnection]) = false)) ∧
      List.count Event.cancelConnection ([Event.connect device] ++ [Event.discoverProfile] ++
        mid ++ [Event.cancelConnection]) = 1 := by
  obtain ⟨mid, hall, hdisc, hcases⟩ := connect_connected env sub device log hc
  have hmid : ∀ e ∈ mid, e ≠ Event.cancelConnection ∧ e ≠ Event.disconnected := by
    intro e he
    have := hall e he
    constructor <;> (rintro rfl; exact this)
  refine ⟨mid, hmid, ?_, ?_, ?_⟩
  · rcases hdisc with ⟨h1, h2, -⟩ | ⟨p, o, h1, h2, h3, h4⟩
    · exact Or.inl ⟨h1, h2⟩
    · refine Or.inr ⟨p, h1, ?_⟩
      cases o with
      | returned => exact h2
      | fatal => exact absurd (h4.mp rfl) hf
      | blocked => exact absurd rfl h3
  · rcases hcases with h | h | h
    · rw [h] at hf
      exact absurd rfl hf
    · exact Or.inl h
    · exact Or.inr h
  · have h0 : mid.count Event.cancelConnection = 0 :=
      List.count_eq_zero.mpr (fun h => (hmid _ h).1 rfl)
    simp [List.count_append, h0]

/-- C3, an instance: every call succeeds and the disconnection is seen. -/
theorem connect_disconnects_once_witness :
    calm.connect [] deviceA.Addr = true ∧ (connect calm 1 deviceA []).1 ≠ .fatal ∧
    (connect calm 1 deviceA []).2.count .cancelConnection = 1 ∧
    (connect calm 1 deviceA []).2.getLast? = some .disconnected ∧
    ∃ mid : List Event, List.count Event.cancelConnection ([Event.connect deviceA] ++
      [Event.discoverProfile] ++ mid ++ [Event.cancelConnection]) = 1 :=
  ⟨by decide, by decide, by decide, by decide,
    (connect_disconnects_once calm 1 deviceA [] (by decide) (by decide)).elim
      (fun mid h => ⟨mid, h.2.2.2⟩)⟩

/-! ## A long-read that fails -/

/-- C8, as stated, fails: the characteristic `notifier` has the read bit, one
descriptor and the notify bit.  When its long-read fails, the exploration prints the
characteristic line, calls the read, and goes on to the end of the service: the
descriptor is neither printed nor read and no subscription is opened, although the
window is not zero.  When the read succeeds, both happen. -/
theorem read_failure_skips_descriptors :
    Int.land notifier.Property CharRead ≠ 0 ∧ cccd ∈ notifier.Descriptors ∧
    explore readFails 1 targetProfile deviceA [] =
      (.returned,
        [.print (.device "c0:00:00:00:00:01" (-60)), .print (.name "sensor"), .print .newline,
         .print (.service ⟨"b82ab3fc15954f6a80f0fe094cc218f9"⟩ 1),
         .print (.characteristic ⟨"2a37"⟩ 18 "RN" 3 4),
         .readLongCharacteristic notifier, .print .newline]) ∧
    explore calm 1 targetProfile deviceA [] =
      (.returned,
        [.print (.device "c0:00:00:00:00:01" (-60)), .print (.name "sensor"), .print .newline,
         .print (.service ⟨"b82ab3fc15954f6a80f0fe094cc218f9"⟩ 1),
         .print (.characteristic ⟨"2a37"⟩ 18 "RN" 3 4),
         .readLongCharacteristic notifier, .print (.value [1]),
         .print (.descriptor ⟨"2902"⟩ 5), .readDescriptor cccd, .print (.value [0, 0]),
         .print (.subscribing false 1), .subscribe notifier false, .sleep 1,
         .unsubscribe notifier false, .print (.unsubscribed false), .print .newline]) ∧
    Event.readDescriptor cccd ∉ (explore readFails 1 targetProfile deviceA []).2 := by
  decide

/-- C8, amended: when the read bit of a characteristic is set and its long-read fails,
the failure is not fatal and the loop body ends there: after the characteristic line
and the read call nothing more is done for that characteristic (no value line, no
descriptor printed or read, no subscription), and the loop goes on with the next
characteristic. -/
theorem exploreCharacteristic_read_failure (env : Env) (sub : Duration) (c : Characteristic)
    (cs : List Characteristic) (log : List Event)
    (hbit : Int.land c.Property CharRead ≠ 0)
    (hfail : env.readLongCharacteristic (log ++ [.print (.characteristic c.UUID c.Property
      (propString (env.range log) c.Property) c.Handle c.ValueHandle)]) c = none) :
    exploreCharacteristic env sub c log =
      (.returned, log ++ [.print (.characteristic c.UUID c.Property
        (propString (env.range log) c.Property) c.Handle c.ValueHandle)] ++
        [.readLongCharacteristic c]) ∧
    exploreCharacteristics env sub (c :: cs) log =
      exploreCharacteristics env sub cs (log ++ [.print (.characteristic c.UUID c.Property
        (propString (env.range log) c.Property) c.Handle c.ValueHandle)] ++
        [.readLongCharacteristic c]) := by
  have h : exploreCharacteristic env sub c log =
      (.returned, log ++ [.print (.characteristic c.UUID c.Property
        (propString (env.range log) c.Property) c.Handle c.ValueHandle)] ++
        [.readLongCharacteristic c]) := by
    unfold exploreCharacteristic
    dsimp only
    rw [if_pos hbit, hfail]
  refine ⟨h, ?_⟩
  rw [exploreCharacteristics, h]

/-- C8, an instance: the long-read of `notifier` fails. -/
theorem exploreCharacteristic_read_failure_witness :
    Int.land notifier.Property CharRead ≠ 0 ∧
    exploreCharacteristic readFails 1 notifier [] =
      (.returned, [.print (.characteristic ⟨"2a37"⟩ 18 "RN" 3 4),
        .readLongCharacteristic notifier]) :=
  ⟨by decide, (exploreCharacteristic_read_failure readFails 1 notifier [] [] (by decide)
    (by decide)).1⟩

/-! ## Which characteristics are subscribed -/

lemma inertOnly_compositional :
    Compositional (fun _ _ ext => ∀ e ∈ ext, e.inert = true) where
  nil := by simp
  inert := by simp
  seq := by
    intro _ ext1 _ ext2 h1 h2 e he
    rcases List.mem_append.mp he with h | h
    · exact h1 e h
    · exact h2 e h

/-- The body of the characteristic loop either stops at a failed long-read, or goes
through the read and the descriptors, whose events are `pre`, to the subscriptions. -/
lemma exploreCharacteristic_cases (env : Env) (sub : Duration) (c : Characteristic)
    (log : List Event) :
    (Int.land c.Property CharRead ≠ 0 ∧
      env.readLongCharacteristic (log ++ [.print (.characteristic c.UUID c.Property
        (propString (env.range log) c.Property) c.Handle c.ValueHandle)]) c = none ∧
      exploreCharacteristic env sub c log =
        (.returned, log ++ [.print (.characteristic c.UUID c.Property
          (propString (env.range log) c.Property) c.Handle c.ValueHandle)] ++
          [.readLongCharacteristic c])) ∨
    ((Int.land c.Property CharRead ≠ 0 →
        (env.readLongCharacteristic (log ++ [.print (.characteristic c.UUID c.Property
          (propString (env.range log) c.Property) c.Handle c.ValueHandle)]) c).isSome = true) ∧
      ∃ pre : List Event, (∀ e ∈ pre, e.inert = true) ∧
        exploreCharacteristic env sub c log = subscribeAll env sub c (log ++ pre)) := by
  unfold exploreCharacteristic
  dsimp only
  by_cases hr : Int.land c.Property CharRead ≠ 0
  · rw [if_pos hr]
    cases hread : env.readLongCharacteristic (log ++ [.print (.characteristic c.UUID c.Property
        (propString (env.range log) c.Property) c.Handle c.ValueHandle)]) c with
    | none => exact Or.inl ⟨hr, rfl, rfl⟩
    | some b =>
      right
      refine ⟨fun _ => rfl, ?_⟩
      dsimp only
      obtain ⟨ext, hext, hin⟩ := holds_readDescriptors inertOnly_compositional env c.Descriptors
        (log ++ [.print (.characteristic c.UUID c.Property
          (propString (env.range log) c.Property) c.Handle c.ValueHandle)] ++
          [.readLongCharacteristic c, .print (.value b)])
      simp only at hext hin
      refine ⟨[.print (.characteristic c.UUID c.Property
          (propString (env.range log) c.Property) c.Handle c.ValueHandle)] ++
          [.readLongCharacteristic c, .print (.value b)] ++ ext, ?_, ?_⟩
      · intro e he
        simp only [List.mem_append, List.mem_cons, List.mem_singleton, List.not_mem_nil,
          or_false] at he
        rcases he with (rfl | rfl | rfl) | he
        · rfl
        · rfl
        · rfl
        · exact hin e he
      · rw [hext]
        simp only [List.append_assoc]
  · rw [if_neg hr]
    right
    refine ⟨fun h => absurd h hr, ?_⟩
    obtain ⟨ext, hext, hin⟩ := holds_readDescriptors inertOnly_compositional env c.Descriptors
      (log ++ [.print (.characteristic c.UUID c.Property
        (propString (env.range log) c.Property) c.Handle c.ValueHandle)])
    simp only at hext hin
    refine ⟨[.print (.characteristic c.UUID c.Property
        (propString (env.range log) c.Property) c.Handle c.ValueHandle)] ++ ext, ?_, ?_⟩
    · intro e he
      simp only [List.mem_append, List.mem_singleton] at he
      rcases he with rfl | he
      · rfl
      · exact hin e he
    · rw [hext]
      simp only [List.append_assoc]

/-- The subscriptions of one characteristic: the events are allowed ones, the
notification `Subscribe` is made when the conditions of lines 173-188 hold, and so is
the indication `Subscribe` when the block returns. -/
lemma subscribeAll_subscribes (env : Env) (sub : Duration) (c : Characteristic)
    (log : List Event) :
    ∃ ext, (subscribeAll env sub c log).2 = log ++ ext ∧ (∀ e ∈ ext, e.allowed sub) ∧
      (sub ≠ 0 → c.UUID ≠ ServiceChangedUUID →
        c.UUID ≠ MustParse "8667556C9A374C9184ED54EE27D90049" →
        Int.land c.Property CharNotify ≠ 0 → Event.subscribe c false ∈ ext) ∧
      ((subscribeAll env sub c log).1 = .returned → sub ≠ 0 → c.UUID ≠ ServiceChangedUUID →
        c.UUID ≠ MustParse "8667556C9A374C9184ED54EE27D90049" →
        Int.land c.Property CharIndicate ≠ 0 → Event.subscribe c true ∈ ext) := by
  obtain ⟨ext, hext, -, hall⟩ := holds_subscribeAll (shape_compositional sub) env sub
    (fun c ind log h0 h1 h2 h3 => shape_subscription env sub c ind log h0 h1 h2 h3) c log
  refine ⟨ext, hext, hall, ?_, ?_⟩
  · intro h0 h1 h2 hn
    have hform : ∃ rest, (subscribeAll env sub c log).2 =
        log ++ (.print (.subscribing false sub) :: .subscribe c false :: rest) := by
      unfold subscribeAll
      rw [if_pos h0]
      simp only [UUID.Equal, h1, h2, decide_False, Bool.false_eq_true, if_false]
      rw [if_pos hn]
      have hl := subscription_log env sub c false log
      rcases hr : subscription env sub c false log with ⟨o, log1⟩
      rw [hr] at hl
      simp only at hl
      cases o with
      | returned =>
        dsimp only
        by_cases hi : Int.land c.Property CharIndicate ≠ 0
        · rw [if_pos hi, subscription_log, hl]
          exact ⟨_, by rw [List.append_assoc]; rfl⟩
        · rw [if_neg hi, hl]
          exact ⟨_, rfl⟩
      | fatal => rw [hl]; exact ⟨_, rfl⟩
      | blocked => rw [hl]; exact ⟨_, rfl⟩
    obtain ⟨rest, hrest⟩ := hform
    rw [hext] at hrest
    rw [List.append_cancel_left hrest]
    simp
  · intro hret h0 h1 h2 hi
    have hform : ∃ pre rest, (subscribeAll env sub c log).2 =
        log ++ (pre ++ .print (.subscribing true sub) :: .subscribe c true :: rest) := by
      unfold subscribeAll at hret ⊢
      rw [if_pos h0] at hret ⊢
      simp only [UUID.Equal, h1, h2, decide_False, Bool.false_eq_true, if_false] at hret ⊢
      by_cases hn : Int.land c.Property CharNotify ≠ 0
      · rw [if_pos hn] at hret ⊢
        have hl := subscription_log env sub c false log
        rcases hr : subscription env sub c false log with ⟨o, log1⟩
        rw [hr] at hl hret
        simp only at hl
        cases o with
        | returned =>
          dsimp only
          rw [if_pos hi, subscription_log, hl]
          exact ⟨.print (.subscribing false sub) :: .subscribe c false ::
            sessionTail env sub c false log, _, by rw [List.append_assoc]⟩
        | fatal => simp at hret
        | blocked => simp at hret
      · rw [if_neg hn]
        dsimp only
        rw [if_pos hi, subscription_log]
        exact ⟨[], _, rfl⟩
    obtain ⟨pre, rest, hrest⟩ := hform
    rw [hext] at hrest
    rw [List.append_cancel_left hrest]
    simp

/-! ## Which characteristics are subscribed: the loop body -/

/-- The body of the characteristic loop run on `c`: the notification `Subscribe` on `c`
is made exactly when the window is not zero, the notify bit is set, the UUID is not
excluded and the long-read did not fail; the indication `Subscribe` only under the same
conditions with the indicate bit, and under them whenever the body returns. -/
lemma exploreCharacteristic_body (env : Env) (sub : Duration) (c : Characteristic)
    (log : List Event) :
    ∃ ext, (exploreCharacteristic env sub c log).2 = log ++ ext ∧
      (Event.subscribe c false ∈ ext ↔
        sub ≠ 0 ∧ Int.land c.Property CharNotify ≠ 0 ∧ c.UUID ≠ ServiceChangedUUID ∧
        c.UUID ≠ MustParse "8667556C9A374C9184ED54EE27D90049" ∧
        (Int.land c.Property CharRead ≠ 0 →
          (env.readLongCharacteristic (log ++ [.print (.characteristic c.UUID c.Property
            (propString (env.range log) c.Property) c.Handle c.ValueHandle)]) c).isSome
              = true)) ∧
      (Event.subscribe c true ∈ ext →
        sub ≠ 0 ∧ Int.land c.Property CharIndicate ≠ 0 ∧ c.UUID ≠ ServiceChangedUUID ∧
        c.UUID ≠ MustParse "8667556C9A374C9184ED54EE27D90049" ∧
        (Int.land c.Property CharRead ≠ 0 →
          (env.readLongCharacteristic (log ++ [.print (.characteristic c.UUID c.Property
            (propString (env.range log) c.Property) c.Handle c.ValueHandle)]) c).isSome
              = true)) ∧
      ((exploreCharacteristic env sub c log).1 = .returned →
        sub ≠ 0 → Int.land c.Property CharIndicate ≠ 0 → c.UUID ≠ ServiceChangedUUID →
        c.UUID ≠ MustParse "8667556C9A374C9184ED54EE27D90049" →
        (Int.land c.Property CharRead ≠ 0 →
          (env.readLongCharacteristic (log ++ [.print (.characteristic c.UUID c.Property
            (propString (env.range log) c.Property) c.Handle c.ValueHandle)]) c).isSome
              = true) →
        Event.subscribe c true ∈ ext) := by
  rcases exploreCharacteristic_cases env sub c log with ⟨hbit, hnone, heq⟩ | ⟨hread, pre, hpre, heq⟩
  · refine ⟨_, by rw [heq, List.append_assoc], ?_, ?_, ?_⟩
    · simp [hbit, hnone]
    · simp
    · intro _ _ _ _ _ h
      have := h hbit
      rw [hnone] at this
      simp at this
  · obtain ⟨ext, hext, hall, hn, hi⟩ := subscribeAll_subscribes env sub c (log ++ pre)
    have hnot : ∀ ind, Event.subscribe c ind ∉ pre := by
      intro ind h
      have := hpre _ h
      simp [Event.inert] at this
    refine ⟨pre ++ ext, by rw [heq, hext, List.append_assoc], ?_, ?_, ?_⟩
    · constructor
      · intro h
        rcases List.mem_append.mp h with h | h
        · exact absurd h (hnot false)
        · obtain ⟨h0, h1, h2, h3⟩ := hall _ h
          exact ⟨h0, by simpa using h3, h1, h2, hread⟩
      · rintro ⟨h0, h3, h1, h2, -⟩
        exact List.mem_append_right _ (hn h0 h1 h2 h3)
    · intro h
      rcases List.mem_append.mp h with h | h
      · exact absurd h (hnot true)
      · obtain ⟨h0, h1, h2, h3⟩ := hall _ h
        exact ⟨h0, by simpa using h3, h1, h2, hread⟩
    · intro hret h0 h3 h1 h2 _
      rw [heq] at hret
      exact List.mem_append_right _ (hi hret h0 h1 h2 h3)

/-! ## Which characteristics are subscribed: the whole exploration -/

lemma exploreCharacteristics_append (env : Env) (sub : Duration)
    (cs1 cs2 : List Characteristic) (log : List Event) :
    exploreCharacteristics env sub (cs1 ++ cs2) log =
      match exploreCharacteristics env sub cs1 log with
      | (.returned, log1) => exploreCharacteristics env sub cs2 log1
      | r => r := by
  induction cs1 generalizing log with
  | nil => rfl
  | cons c cs ih =>
    rw [List.cons_append, exploreCharacteristics, exploreCharacteristics]
    rcases exploreCharacteristic env sub c log with ⟨o, log1⟩
    cases o with
    | returned => exact ih log1
    | fatal => rfl
    | blocked => rfl

lemma exploreServices_append (env : Env) (sub : Duration) (ss1 ss2 : List Service)
    (log : List Event) :
    exploreServices env sub (ss1 ++ ss2) log =
      match exploreServices env sub ss1 log with
      | (.returned, log1) => exploreServices env sub ss2 log1
      | r => r := by
  induction ss1 generalizing log with
  | nil => rfl
  | cons s ss ih =>
    rw [List.cons_append, exploreServices, exploreServices]
    by_cases hs : s.UUID.String ≠ ServiceID
    · rw [if_pos hs, if_pos hs]
      exact ih log
    · rw [if_neg hs, if_neg hs]
      dsimp only
      generalize exploreCharacteristics env sub s.Characteristics
        (log ++ [.print (.service s.UUID s.Handle)]) = r
      rcases r with ⟨o, log1⟩
      cases o with
      | returned => exact ih _
      | fatal => rfl
      | blocked => rfl

lemma exploreCharacteristics_extends (env : Env) (sub : Duration) (cs : List Characteristic)
    (log : List Event) : ∃ ext, (exploreCharacteristics env sub cs log).2 = log ++ ext := by
  obtain ⟨ext, h, -⟩ := holds_exploreCharacteristics (shape_compositional sub) env sub
    (holds_subscribeAll (shape_compositional sub) env sub
      (fun c ind log h0 h1 h2 h3 => shape_subscription env sub c ind log h0 h1 h2 h3)) cs log
  exact ⟨ext, h⟩

lemma exploreServices_extends (env : Env) (sub : Duration) (ss : List Service)
    (log : List Event) : ∃ ext, (exploreServices env sub ss log).2 = log ++ ext := by
  obtain ⟨ext, h, -⟩ := holds_exploreServices (shape_compositional sub) env sub
    (holds_subscribeAll (shape_compositional sub) env sub
      (fun c ind log h0 h1 h2 h3 => shape_subscription env sub c ind log h0 h1 h2 h3)) ss log
  exact ⟨ext, h⟩

lemma foundService_true (ss1 ss2 : List Service) (s : Service) (hs : s.UUID.String = ServiceID) :
    foundService (ss1 ++ s :: ss2) = true := by
  induction ss1 with
  | nil => simp [foundService, hs]
  | cons x xs ih =>
    rw [List.cons_append, foundService]
    split
    · rfl
    · exact ih

/-- How `explore` goes through a characteristic `c` of a target service `s`: it stops
before `c` when the part before `c` did not return, and else runs the loop body on `c`
from the log reached, stops there when the body did not return, and goes on from the
log of the body otherwise. -/
lemma explore_through (env : Env) (sub : Duration) (p : Profile) (a : Advertisement)
    (log : List Event) (ss1 : List Service) (s : Service) (ss2 : List Service)
    (cs1 : List Characteristic) (c : Characteristic) (cs2 : List Characteristic)
    (hp : p.Services = ss1 ++ s :: ss2) (hs : s.UUID.String = ServiceID)
    (hc : s.Characteristics = cs1 ++ c :: cs2) :
    ((exploreUpTo env sub a log ss1 s cs1).1 ≠ .returned →
      explore env sub p a log = exploreUpTo env sub a log ss1 s cs1) ∧
    (∀ l, exploreUpTo env sub a log ss1 s cs1 = (.returned, l) →
      ((exploreCharacteristic env sub c l).1 ≠ .returned →
        explore env sub p a log = exploreCharacteristic env sub c l) ∧
      ∃ post, (explore env sub p a log).2 = (exploreCharacteristic env sub c l).2 ++ post) := by
  have hexp : explore env sub p a log =
      match exploreUpTo env sub a log ss1 s cs1 with
      | (Outcome.returned, l) =>
        match exploreCharacteristic env sub c l with
        | (Outcome.returned, l1) =>
          match exploreCharacteristics env sub cs2 l1 with
          | (Outcome.returned, l2) => exploreServices env sub ss2 (l2 ++ [Event.print .newline])
          | r => r
        | r => r
      | r => r := by
    unfold explore exploreUpTo
    rw [hp, foundService_true ss1 ss2 s hs]
    simp only [Bool.not_true, Bool.false_eq_true, if_false]
    rw [exploreServices_append]
    generalize exploreServices env sub ss1 (log ++ (showDevice a).map .print) = r1
    rcases r1 with ⟨o1, log1⟩
    cases o1 with
    | fatal => rfl
    | blocked => rfl
    | returned =>
      dsimp only
      rw [exploreServices, if_neg (by simpa using hs)]
      dsimp only
      rw [hc, exploreCharacteristics_append]
      generalize exploreCharacteristics env sub cs1
        (log1 ++ [.print (.service s.UUID s.Handle)]) = r2
      rcases r2 with ⟨o2, l⟩
      cases o2 with
      | fatal => rfl
      | blocked => rfl
      | returned =>
        dsimp only
        rw [exploreCharacteristics]
        generalize exploreCharacteristic env sub c l = r3
        rcases r3 with ⟨o3, l1⟩
        cases o3 with
        | fatal => rfl
        | blocked => rfl
        | returned => rfl
  constructor
  · intro hne
    rw [hexp]
    generalize exploreUpTo env sub a log ss1 s cs1 = r at hne ⊢
    rcases r with ⟨o, l⟩
    cases o with
    | returned => exact absurd rfl hne
    | fatal => rfl
    | blocked => rfl
  · intro l hl
    rw [hexp, hl]
    dsimp only
    generalize exploreCharacteristic env sub c l = r3
    rcases r3 with ⟨o3, l1⟩
    cases o3 with
    | fatal => exact ⟨fun _ => rfl, [], by simp⟩
    | blocked => exact ⟨fun _ => rfl, [], by simp⟩
    | returned =>
      refine ⟨fun h => absurd rfl h, ?_⟩
      dsimp only
      obtain ⟨e2, h2⟩ := exploreCharacteristics_extends env sub cs2 l1
      generalize exploreCharacteristics env sub cs2 l1 = r4 at h2 ⊢
      rcases r4 with ⟨o4, l2⟩
      simp only at h2
      cases o4 with
      | fatal => exact ⟨e2, h2⟩
      | blocked => exact ⟨e2, h2⟩
      | returned =>
        dsimp only
        obtain ⟨e3, h3⟩ := exploreServices_extends env sub ss2 (l2 ++ [.print .newline])
        exact ⟨e2 ++ [.print .newline] ++ e3, by rw [h3, h2]; simp⟩

/-- C6, as stated, fails, in two ways.  First: the window is not zero, `notifier` has
the notify bit and a UUID that is not excluded, and it is a characteristic of the
target service; but its long-read fails, the loop goes to the next characteristic, and
no notification `Subscribe` is made on it.  Second: `notifier` comes after `both` in the
target service and its long-read succeeds; but the `Subscribe` on `both` fails, the
process ends in `log.Fatalf`, and `notifier` is never reached. -/
theorem read_failure_prevents_subscription :
    ((1 : Duration) ≠ 0 ∧ Int.land notifier.Property CharNotify ≠ 0 ∧
      notifier.UUID ≠ ServiceChangedUUID ∧
      notifier.UUID ≠ MustParse "8667556C9A374C9184ED54EE27D90049") ∧
    (foundService targetProfile.Services = true ∧
      explore readFails 1 targetProfile deviceA [] =
        (.returned,
          [.print (.device "c0:00:00:00:00:01" (-60)), .print (.name "sensor"), .print .newline,
           .print (.service ⟨"b82ab3fc15954f6a80f0fe094cc218f9"⟩ 1),
           .print (.characteristic ⟨"2a37"⟩ 18 "RN" 3 4),
           .readLongCharacteristic notifier, .print .newline]) ∧
      Event.subscribe notifier false ∉ (explore readFails 1 targetProfile deviceA []).2) ∧
    (foundService twoProfile.Services = true ∧
      twoService.Characteristics = [both, notifier] ∧
      explore subscribeFails 1 twoProfile deviceA [] =
        (.fatal,
          [.print (.device "c0:00:00:00:00:01" (-60)), .print (.name "sensor"), .print .newline,
           .print (.service ⟨"b82ab3fc15954f6a80f0fe094cc218f9"⟩ 1),
           .print (.characteristic ⟨"2a38"⟩ 48 "NI" 6 7),
           .print (.subscribing false 1), .subscribe both false, .fatalf .subscribe]) ∧
      Event.subscribe notifier false ∉ (explore subscribeFails 1 twoProfile deviceA []).2) := by
  decide

/-- C6, amended: let `c` be a characteristic of a service `s` of the profile whose UUID
text is `ServiceID`.  When the part of `explore` before `c` has ended the process,
`explore` does nothing for `c`.  Otherwise `explore` runs the loop body on `c`, and
among the events `ext` of that body the notification `Subscribe` on `c` is made if and
only if the window `sub` is not zero, the notify bit of `c` is set, the UUID of `c` is
neither of the two excluded ones, and the long-read of `c`, made when its read bit is
set, did not fail; the indication `Subscribe` on `c` is made only under the same
conditions with the indicate bit, and is made under them whenever the body returns.
When `explore` returns, every such `c` was reached and its body returned.  In the whole
of `explore`, every `Subscribe` and every `Unsubscribe` is made with a window that is
not zero, on a characteristic off the two excluded UUIDs, and with the property bit of
its mode set. -/
theorem explore_subscribes (env : Env) (sub : Duration) (p : Profile) (a : Advertisement)
    (log : List Event) (ss1 : List Service) (s : Service) (ss2 : List Service)
    (cs1 : List Characteristic) (c : Characteristic) (cs2 : List Characteristic)
    (hp : p.Services = ss1 ++ s :: ss2) (hs : s.UUID.String = ServiceID)
    (hc : s.Characteristics = cs1 ++ c :: cs2) :
    ((exploreUpTo env sub a log ss1 s cs1).1 ≠ .returned →
      explore env sub p a log = exploreUpTo env sub a log ss1 s cs1) ∧
    (∀ l, exploreUpTo env sub a log ss1 s cs1 = (.returned, l) →
      ∃ ext post, (exploreCharacteristic env sub c l).2 = l ++ ext ∧
        (explore env sub p a log).2 = l ++ ext ++ post ∧
        ((exploreCharacteristic env sub c l).1 ≠ .returned →
          explore env sub p a log = exploreCharacteristic env sub c l) ∧
        (Event.subscribe c false ∈ ext ↔
          sub ≠ 0 ∧ Int.land c.Property CharNotify ≠ 0 ∧ c.UUID ≠ ServiceChangedUUID ∧
          c.UUID ≠ MustParse "8667556C9A374C9184ED54EE27D90049" ∧
          (Int.land c.Property CharRead ≠ 0 →
            (env.readLongCharacteristic (l ++ [.print (.characteristic c.UUID c.Property
              (propString (env.range l) c.Property) c.Handle c.ValueHandle)]) c).isSome
                = true)) ∧
        (Event.subscribe c true ∈ ext →
          sub ≠ 0 ∧ Int.land c.Property CharIndicate ≠ 0 ∧ c.UUID ≠ ServiceChangedUUID ∧
          c.UUID ≠ MustParse "8667556C9A374C9184ED54EE27D90049" ∧
          (Int.land c.Property CharRead ≠ 0 →
            (env.readLongCharacteristic (l ++ [.print (.characteristic c.UUID c.Property
              (propString (env.range l) c.Property) c.Handle c.ValueHandle)]) c).isSome
                = true)) ∧
        ((exploreCharacteristic env sub c l).1 = .returned →
          sub ≠ 0 → Int.land c.Property CharIndicate ≠ 0 → c.UUID ≠ ServiceChangedUUID →
          c.UUID ≠ MustParse "8667556C9A374C9184ED54EE27D90049" →
          (Int.land c.Property CharRead ≠ 0 →
            (env.readLongCharacteristic (l ++ [.print (.characteristic c.UUID c.Property
              (propString (env.range l) c.Property) c.Handle c.ValueHandle)]) c).isSome
                = true) →
          Event.subscribe c true ∈ ext)) ∧
    ((explore env sub p a log).1 = .returned →
      ∃ l, exploreUpTo env sub a log ss1 s cs1 = (.returned, l) ∧
        (exploreCharacteristic env sub c l).1 = .returned) ∧
    (∃ ext, (explore env sub p a log).2 = log ++ ext ∧
      ∀ c1 ind, Event.subscribe c1 ind ∈ ext ∨ Event.unsubscribe c1 ind ∈ ext →
        sub ≠ 0 ∧ c1.UUID ≠ ServiceChangedUUID ∧
        c1.UUID ≠ MustParse "8667556C9A374C9184ED54EE27D90049" ∧
        Int.land c1.Property (if ind = true then CharIndicate else CharNotify) ≠ 0) := by
  obtain ⟨hstop, hrun⟩ := explore_through env sub p a log ss1 s ss2 cs1 c cs2 hp hs hc
  refine ⟨hstop, ?_, ?_, ?_⟩
  · intro l hl
    obtain ⟨hend, post, hpost⟩ := hrun l hl
    obtain ⟨ext, hext, h1, h2, h3⟩ := exploreCharacteristic_body env sub c l
    exact ⟨ext, post, hext, by rw [hpost, hext], hend, h1, h2, h3⟩
  · intro hret
    rcases hu : exploreUpTo env sub a log ss1 s cs1 with ⟨o, l⟩
    have ho : o = .returned := by
      by_contra hne
      have := hstop (by rw [hu]; exact hne)
      rw [this, hu] at hret
      exact hne hret
    subst ho
    refine ⟨l, rfl, ?_⟩
    by_contra hne
    have := (hrun l hu).1 hne
    rw [this] at hret
    exact hne hret
  · obtain ⟨ext, hext, -, hall⟩ := shape_explore env sub p a log
    refine ⟨ext, hext, ?_⟩
    rintro c1 ind (h | h)
    · exact hall _ h
    · exact hall _ h

/-- C6, an instance: every call succeeds and the window is one nanosecond; `explore`
returns, so it reached `notifier`, the second characteristic of the target service, and
the loop body on it returned; the notification `Subscribe` on `notifier` is in the log
of `explore`, and no indication `Subscribe` on it, as it has no indicate bit. -/
theorem explore_subscribes_witness :
    twoProfile.Services = [] ++ twoService :: [] ∧ twoService.UUID.String = ServiceID ∧
    twoService.Characteristics = [both] ++ notifier :: [] ∧
    (explore calm 1 twoProfile deviceA []).1 = .returned ∧
    Event.subscribe notifier false ∈ (explore calm 1 twoProfile deviceA []).2 ∧
    Event.subscribe notifier true ∉ (explore calm 1 twoProfile deviceA []).2 ∧
    ∃ l, exploreUpTo calm 1 deviceA [] [] twoService [both] = (.returned, l) ∧
      (exploreCharacteristic calm 1 notifier l).1 = .returned :=
  ⟨rfl, rfl, rfl, by decide, by decide, by decide,
    (explore_subscribes calm 1 twoProfile deviceA [] [] twoService [] [both] notifier []
      rfl rfl rfl).2.2.1 (by decide)⟩

/-! ## The order of the calls of a subscription -/

/-- C7: in the events `explore` appends, every `Subscribe` that succeeded is followed at
once by the sleep of the configured window `sub`, by the lines the callback prints for
the values pushed meanwhile (there may be none), and by the `Unsubscribe` of the same
characteristic and the same mode.  And before every indication `Subscribe` on a
characteristic that also has the notify bit, the log holds a whole notification session
on that characteristic: its `Subscribe`, the sleep, and its `Unsubscribe`. -/
theorem explore_sessions_in_order (env : Env) (sub : Duration) (p : Profile)
    (a : Advertisement) (log : List Event) :
    ∃ ext, (explore env sub p a log).2 = log ++ ext ∧
      (∀ pre post c ind, ext = pre ++ Event.subscribe c ind :: post →
        env.subscribe (log ++ pre) c ind = true →
        ∃ rest, post = Event.sleep sub ::
          (env.pushed (log ++ pre ++ [Event.subscribe c ind]) c ind).map
            (fun b => Event.print (.pushed ind b)) ++ Event.unsubscribe c ind :: rest) ∧
      (∀ pre post c, ext = pre ++ Event.subscribe c true :: post →
        Int.land c.Property CharNotify ≠ 0 →
        ∃ (p1 : List Event) (pushed : List Bytes) (p2 : List Event),
          pre = p1 ++ Event.subscribe c false :: Event.sleep sub ::
            pushed.map (fun b => Event.print (.pushed false b)) ++
            Event.unsubscribe c false :: p2) := by
  obtain ⟨ext, hext, hclosed⟩ := closed_explore env sub p a log
  obtain ⟨ext2, hext2, hfirst⟩ := notifyFirst_explore env sub p a log
  rw [hext] at hext2
  have := List.append_cancel_left hext2
  subst this
  exact ⟨ext, hext, hclosed, hfirst⟩

/-- C7, an instance: a characteristic with both bits, every call succeeding and no
value pushed; the indication `Subscribe` comes after the whole notification session and
is followed by the sleep and its `Unsubscribe`. -/
theorem explore_sessions_in_order_witness :
    calm.subscribe
      ([] ++ [.print (.device "c0:00:00:00:00:01" (-60)), .print (.name "sensor"),
        .print .newline, .print (.service ⟨"b82ab3fc15954f6a80f0fe094cc218f9"⟩ 1),
        .print (.characteristic ⟨"2a38"⟩ 48 "NI" 6 7),
        .print (.subscribing false 1), .subscribe both false, .sleep 1,
        .unsubscribe both false, .print (.unsubscribed false),
        .print (.subscribing true 1)]) both true = true ∧
    ∃ rest, [Event.sleep 1, .unsubscribe both true, .print (.unsubscribed true),
        .print .newline] =
      Event.sleep 1 :: (calm.pushed
        ([] ++ [.print (.device "c0:00:00:00:00:01" (-60)), .print (.name "sensor"),
        .print .newline, .print (.service ⟨"b82ab3fc15954f6a80f0fe094cc218f9"⟩ 1),
        .print (.characteristic ⟨"2a38"⟩ 48 "NI" 6 7),
        .print (.subscribing false 1), .subscribe both false, .sleep 1,
        .unsubscribe both false, .print (.unsubscribed false),
        .print (.subscribing true 1)] ++ [Event.subscribe both true]) both true).map
          (fun b => Event.print (.pushed true b)) ++ Event.unsubscribe both true :: rest :=
  ⟨by decide,
    (explore_sessions_in_order calm 1 bothProfile deviceA []).elim (fun ext h =>
      h.2.1 _ _ both true
        (((List.nil_append ext).symm.trans h.1.symm).trans (by decide)) (by decide))⟩

/-! ## When the process is ended by `log.Fatalf` -/

/-- C9, as stated, fails: `dev.NewDevice` succeeds and no `Subscribe` or `Unsubscribe` is
ever called, but `ble.Scan` returns an error that is neither a passed deadline nor a
cancellation; `chkErr` ends the process and `Done` is not reached. -/
theorem scan_error_is_fatal :
    scanFails.newDevice = true ∧ scanFails.scan = .other ∧
    main scanFails withWindow = (.fatal, [.print (.scanning 5000000000), .fatalf .scan]) ∧
    (∀ e ∈ (main scanFails withWindow).2, e.isSubscribe = false ∧ e.isUnsubscribe = false) := by
  decide

/-- The ways `main` ends, in terms of the answers of the collaborators. -/
lemma main_outcomes (env : Env) (flags : Flags) :
    ((main env flags).1 = .fatal ↔
      env.newDevice = false ∨ env.scan = .other ∨
      (∃ pre post c ind, (main env flags).2 = pre ++ Event.subscribe c ind :: post ∧
        env.subscribe pre c ind = false) ∨
      (∃ pre post c ind, (main env flags).2 = pre ++ Event.unsubscribe c ind :: post ∧
        env.unsubscribe pre c ind = false)) ∧
    ((main env flags).1 = .returned →
      ∃ pre, (main env flags).2 = pre ++ [Event.print .done]) ∧
    ((∀ history, env.disconnected history = true) → (main env flags).1 ≠ .blocked) := by
  rw [← failed_iff]
  rcases main_cases env flags with ⟨hn, hm⟩ | ⟨hn, hs, hm⟩ | ⟨hn, hs, line, o, ext, hline, hloop, hm⟩
  · rw [hm]
    simp [hn]
  · rw [hm]
    simp [hs]
  · rw [hm]
    obtain ⟨ext1, hext1, hiff⟩ := connectLoop_fatal_iff env flags.sub (scanned env) []
      ([.print (.scanning flags.sd)] ++ line ++ [.print .connecting])
    rw [hloop] at hext1 hiff
    simp only [List.append_cancel_left_eq] at hext1
    subst hext1
    simp only at hiff
    have hhead : ¬ Failed env []
        ([.print (.scanning flags.sd)] ++ line ++ [.print .connecting]) := by
      refine not_failed_of_no_call env [] _ ?_
      intro e he history
      simp only [List.mem_append, List.mem_singleton] at he
      rcases he with (rfl | he) | rfl
      · rfl
      · have := hline e he
        cases e <;> simp_all [Event.inert, Env.fails]
      · rfl
    have htail : ∀ base, ¬ Failed env base
        (if o = .returned then [Event.print .done] else []) := by
      intro base
      refine not_failed_of_no_call env base _ ?_
      intro e he history
      split at he
      · simp only [List.mem_singleton] at he
        subst he
        rfl
      · simp at he
    refine ⟨?_, ?_, ?_⟩
    · simp only [hn, hs, Bool.true_eq_false, false_or]
      rw [failed_append, failed_append, hiff]
      simp only [hhead, htail, false_or, or_false, List.nil_append]
    · intro ho
      simp only at ho
      subst ho
      exact ⟨_, by rw [if_pos rfl]⟩
    · intro hd
      have := connectLoop_not_blocked env flags.sub (scanned env) []
        ([.print (.scanning flags.sd)] ++ line ++ [.print .connecting]) hd
      rw [hloop] at this
      exact this

/-- C9, amended: `main` ends the process through `log.Fatalf` if and only if
`dev.NewDevice` fails, or `ble.Scan` returns an error whose cause is neither `nil`, nor
a passed deadline, nor a cancellation, or some `Subscribe` or `Unsubscribe` call of the
run fails.  When `main` returns, the last thing it did is print `Done`.  When none of
the three happens and every disconnection `main` waits for comes, `main` returns after
printing `Done`, whatever `ble.Connect`, the profile discoveries and the reads of
characteristics and descriptors answer. -/
theorem main_fatal_iff (env : Env) (flags : Flags) :
    ((main env flags).1 = .fatal ↔
      env.newDevice = false ∨ env.scan = .other ∨
      (∃ pre post c ind, (main env flags).2 = pre ++ Event.subscribe c ind :: post ∧
        env.subscribe pre c ind = false) ∨
      (∃ pre post c ind, (main env flags).2 = pre ++ Event.unsubscribe c ind :: post ∧
        env.unsubscribe pre c ind = false)) ∧
    ((main env flags).1 = .returned →
      ∃ pre, (main env flags).2 = pre ++ [Event.print .done]) ∧
    ((∀ history, env.disconnected history = true) → (main env flags).1 ≠ .blocked) ∧
    (env.newDevice = true → env.scan ≠ .other →
      (∀ history c ind, env.subscribe history c ind = true) →
      (∀ history c ind, env.unsubscribe history c ind = true) →
      (∀ history, env.disconnected history = true) →
      (main env flags).1 = .returned ∧
        ∃ pre, (main env flags).2 = pre ++ [Event.print .done]) := by
  obtain ⟨hiff, hdone, hblocked⟩ := main_outcomes env flags
  refine ⟨hiff, hdone, hblocked, ?_⟩
  intro hn hs hsub hunsub hd
  have hnf : (main env flags).1 ≠ .fatal := by
    rw [Ne, hiff]
    rintro (h | h | ⟨pre, post, c, ind, -, h⟩ | ⟨pre, post, c, ind, -, h⟩)
    · rw [hn] at h
      exact Bool.noConfusion h
    · exact hs h
    · rw [hsub] at h
      exact Bool.noConfusion h
    · rw [hunsub] at h
      exact Bool.noConfusion h
  have hnb := hblocked hd
  have hret : (main env flags).1 = .returned := by
    cases h : (main env flags).1 with
    | returned => rfl
    | fatal => exact absurd h hnf
    | blocked => exact absurd h hnb
  exact ⟨hret, hdone hret⟩

/-- C9, an instance: every long-read fails, nothing else does; `main` returns after
printing `Done`. -/
theorem main_fatal_iff_witness :
    readFails.newDevice = true ∧ readFails.scan ≠ .other ∧
    (main readFails withWindow).1 = .returned ∧
    ∃ pre, (main readFails withWindow).2 = pre ++ [Event.print .done] :=
  ⟨rfl, by decide,
    (main_fatal_iff readFails withWindow).2.2.2 rfl (by decide) (fun _ _ _ => rfl)
      (fun _ _ _ => rfl) (fun _ => rfl)⟩

end BleExplorer
